import Mathlib

/-!
# TFMiniPlus driver: framing, checksum and command round trips

A shallow embedding of `LidarScanner/lib/TFMiniPlus/TFMiniPlus.cpp`.

Conventions of the embedding.

* A byte is a natural number below 256; arrays of `uint8_t` are lists whose
  length is the declared size of the array. Wrap-around of the fixed-width
  integer types is written out with `%`.
* The target is taken to have 32-bit `int` and 32-bit `size_t`.
* A call either returns, or never returns (the marker scan spins on a silent
  transport), or indexes an array outside its declared bounds. The three cases
  are the constructors of `Outcome`.
* Local arrays that the source leaves uninitialised are extra arguments that
  carry their arbitrary initial contents.
-/

set_option autoImplicit false

/-- Result of running a driver routine. -/
inductive Outcome (α : Type) where
  /-- The routine returned the value `a`. -/
  | returns (a : α) : Outcome α
  /-- The routine never returns: it keeps polling the transport. -/
  | blocks : Outcome α
  /-- The routine indexed an array outside its declared bounds. -/
  | outOfBounds : Outcome α
deriving DecidableEq, Repr

namespace Outcome

/-- Sequencing: run `f` on the value of an outcome that returned. -/
def bind {α β : Type} : Outcome α → (α → Outcome β) → Outcome β
  | returns a, f => f a
  | blocks, _ => blocks
  | outOfBounds, _ => outOfBounds

end Outcome

namespace Arduino

/-- The serial transport seen from the driver: the bytes the sensor has sent
and that were not read yet, and the bytes the driver has written so far. Once
`pending` is exhausted nothing more arrives. -/
structure Stream where
  pending : List Nat
  written : List Nat
deriving DecidableEq, Repr

namespace Stream

/-- Embeds `Stream::readBytes(buffer, length)`: takes bytes off the transport one at a
time and stores them at `buffer[0]`, `buffer[1]`, ... until `length` bytes were
read or nothing more arrives (the timed read gives up). Storing past the
declared size of `buffer` is out of bounds. -/
def readBytes (s : Stream) (buffer : List Nat) (length : Nat) :
    Outcome (List Nat × Stream) :=
  let got := s.pending.take length
  if got.length ≤ buffer.length then
    Outcome.returns (got ++ buffer.drop got.length, { s with pending := s.pending.drop length })
  else
    Outcome.outOfBounds

/-- Embeds `Stream::readBytes(&x, 1)` on a single byte variable holding `x`: the
variable keeps its value when nothing arrives. -/
def readByte (s : Stream) (x : Nat) : Nat × Stream :=
  match s.pending with
  | [] => (x, s)
  | b :: rest => (b, { s with pending := rest })

/-- Embeds `Stream::write(b)`: hands one byte to the transport. -/
def write (s : Stream) (b : Nat) : Stream :=
  { s with written := s.written ++ [b] }

end Stream

end Arduino

/-- State of a driver object: its transport and the last-frame buffer
(`_readDataBuffer`, nine bytes: every use in the source passes the size 9). -/
structure TFMiniPlus where
  _stream : Arduino.Stream
  _readDataBuffer : List Nat
deriving DecidableEq, Repr

namespace TFMiniPlus

def DATA_FRAME_MARKER : Nat := 0x59

def DATA_FRAME_LENGTH : Nat := 9

def CMD_FRAME_MARKER : Nat := 0x5A

def MAX_CMD_RESPONSE_LENGTH : Nat := 8

/-- Conversion of an `int` value `x - k` (with `x`, `k` small and non-negative)
to the 32-bit `size_t`: negative values wrap around. -/
def sizeOfDifference (x k : Nat) : Nat := (x + 2 ^ 32 - k) % 2 ^ 32

/-- Loop of `generateChecksum`: `remaining` iterations are left, `i` is the
loop counter and `sum` the 16-bit accumulator. -/
def generateChecksum.loop (buffer : List Nat) : Nat → Nat → Nat → Outcome Nat
  | 0, _, sum => Outcome.returns sum
  | remaining + 1, i, sum =>
    match buffer[i]? with
    | some b => generateChecksum.loop buffer remaining (i + 1) ((sum + b) % 65536)
    | none => Outcome.outOfBounds

/-- Embeds `TFMiniPlus::generateChecksum(buffer, length)`: adds `buffer[0..length-1]`
into a `uint16_t` and returns the value cast to `uint8_t`. -/
def generateChecksum (buffer : List Nat) (length : Nat) : Outcome Nat :=
  (generateChecksum.loop buffer length 0 0).bind fun sum => Outcome.returns (sum % 256)

/-- Embeds `TFMiniPlus::validateChecksum(dataBuffer, length)`. The argument
`length - 1` of `generateChecksum` is converted to `uint8_t`, so a `length` of
zero asks for 255 bytes; `dataBuffer[length - 1]` has index -1 in that case. -/
def validateChecksum (dataBuffer : List Nat) (length : Nat) : Outcome Bool :=
  (generateChecksum dataBuffer ((length + 255) % 256)).bind fun sum =>
    if length = 0 then Outcome.outOfBounds
    else
      match dataBuffer[length - 1]? with
      | some checksum => Outcome.returns (sum == checksum)
      | none => Outcome.outOfBounds

/-- Loop of `copyBuffer`: `buffer1[i] = buffer2[i]` for `remaining` more
indices starting at `i`. -/
def copyBuffer.loop (buffer2 : List Nat) : Nat → Nat → List Nat → Outcome (List Nat)
  | 0, _, buffer1 => Outcome.returns buffer1
  | remaining + 1, i, buffer1 =>
    match buffer2[i]? with
    | some b =>
      if i < buffer1.length then copyBuffer.loop buffer2 remaining (i + 1) (buffer1.set i b)
      else Outcome.outOfBounds
    | none => Outcome.outOfBounds

/-- Embeds `TFMiniPlus::copyBuffer(buffer1, buffer2, length)`; returns the new
contents of `buffer1`. -/
def copyBuffer (buffer1 buffer2 : List Nat) (length : Nat) : Outcome (List Nat) :=
  copyBuffer.loop buffer2 length 0 buffer1

/-- Loop of `resetBuffer`: `buffer[i] = 0x00` for `remaining` more indices
starting at `i`. -/
def resetBuffer.loop : Nat → Nat → List Nat → Outcome (List Nat)
  | 0, _, buffer => Outcome.returns buffer
  | remaining + 1, i, buffer =>
    if i < buffer.length then resetBuffer.loop remaining (i + 1) (buffer.set i 0)
    else Outcome.outOfBounds

/-- Embeds `TFMiniPlus::resetBuffer(buffer, length)`; returns the new contents. -/
def resetBuffer (buffer : List Nat) (length : Nat) : Outcome (List Nat) :=
  resetBuffer.loop length 0 buffer

/-- Loop of `write`: hands `buffer[i]` to the transport for `remaining` more
indices starting at `i`. -/
def write.loop (buffer : List Nat) : Nat → Nat → Arduino.Stream → Outcome Arduino.Stream
  | 0, _, s => Outcome.returns s
  | remaining + 1, i, s =>
    match buffer[i]? with
    | some b => write.loop buffer remaining (i + 1) (s.write b)
    | none => Outcome.outOfBounds

/-- Embeds `TFMiniPlus::write(buffer, length)`. -/
def write (self : TFMiniPlus) (buffer : List Nat) (length : Nat) : Outcome TFMiniPlus :=
  (write.loop buffer length 0 self._stream).bind fun s =>
    Outcome.returns { self with _stream := s }

/-- Loop of `skipToFrameHeader` over the bytes still to arrive: `currentChar`
is the last byte read (initially `0x00`). When nothing more arrives the read
leaves `currentChar` as it is, so the loop spins for ever unless it has
already stopped. -/
def skipToFrameHeader.loop (frameHeader : Nat) : Nat → List Nat → Outcome (List Nat)
  | currentChar, [] =>
    if currentChar ≠ frameHeader then Outcome.blocks else Outcome.returns []
  | currentChar, b :: rest =>
    if currentChar ≠ frameHeader then skipToFrameHeader.loop frameHeader b rest
    else Outcome.returns (b :: rest)

/-- Embeds `TFMiniPlus::skipToFrameHeader(frameHeader)`. -/
def skipToFrameHeader (self : TFMiniPlus) (frameHeader : Nat) : Outcome TFMiniPlus :=
  (skipToFrameHeader.loop frameHeader 0x00 self._stream.pending).bind fun rest =>
    Outcome.returns { self with _stream := { self._stream with pending := rest } }

/-- Loop of `readData` that rebuilds the frame: `frame[i] = buffer[i - 1]` for
`remaining` more indices starting at `i`. -/
def readData.loop (buffer : List Nat) : Nat → Nat → List Nat → Outcome (List Nat)
  | 0, _, frame => Outcome.returns frame
  | remaining + 1, i, frame =>
    match buffer[i - 1]? with
    | some b =>
      if i < frame.length then readData.loop buffer remaining (i + 1) (frame.set i b)
      else Outcome.outOfBounds
    | none => Outcome.outOfBounds

/-- Embeds `TFMiniPlus::readData()`. The argument `buffer` is the initial content of
the uninitialised local `uint8_t buffer[9]`. Returns the result and the new
state. -/
def readData (self : TFMiniPlus) (buffer : List Nat) : Outcome (Bool × TFMiniPlus) :=
  (resetBuffer self._readDataBuffer 9).bind fun cleared =>
  (skipToFrameHeader { self with _readDataBuffer := cleared } DATA_FRAME_MARKER).bind fun s1 =>
  (s1._stream.readBytes buffer (DATA_FRAME_LENGTH - 1)).bind fun (buffer1, stream2) =>
  (readData.loop buffer1 (DATA_FRAME_LENGTH - 1) 1
      (DATA_FRAME_MARKER :: List.replicate (DATA_FRAME_LENGTH - 1) 0)).bind fun frame =>
  (validateChecksum frame DATA_FRAME_LENGTH).bind fun valid =>
    if valid then
      (copyBuffer s1._readDataBuffer frame 9).bind fun stored =>
        Outcome.returns (true, { _stream := stream2, _readDataBuffer := stored })
    else
      Outcome.returns (false, { _stream := stream2, _readDataBuffer := s1._readDataBuffer })

/-- Embeds `TFMiniPlus::getDistance()`: `_readDataBuffer[2] | (_readDataBuffer[3] << 8)`
as `uint16_t`. -/
def getDistance (self : TFMiniPlus) : Nat :=
  (self._readDataBuffer.getD 2 0 ||| (self._readDataBuffer.getD 3 0 <<< 8)) % 65536

/-- Embeds `TFMiniPlus::getSensorRawTempreture()`. -/
def getSensorRawTempreture (self : TFMiniPlus) : Nat :=
  (self._readDataBuffer.getD 6 0 ||| (self._readDataBuffer.getD 7 0 <<< 8)) % 65536

/-- Embeds `TFMiniPlus::getSensorTempreture()`: `raw / 8.0 - 256`. Every value
`raw / 8 - 256` with `raw < 65536` is a multiple of 1/8 of magnitude below
`2 ^ 13`, which binary floating point represents exactly, so the result is
given as a rational number. -/
def getSensorTempreture (self : TFMiniPlus) : ℚ :=
  (getSensorRawTempreture self : ℚ) / 8 - 256

/-- Embeds `TFMiniPlus::getSignalStrength()`. -/
def getSignalStrength (self : TFMiniPlus) : Nat :=
  (self._readDataBuffer.getD 4 0 ||| (self._readDataBuffer.getD 5 0 <<< 8)) % 65536

/-- Embeds `TFMiniPlus::readInt16FromBuffer(buffer, startIndex)`:
`0x0000 | buffer[startIndex] << 8 | buffer[startIndex + 1]` as `uint16_t`. -/
def readInt16FromBuffer (buffer : List Nat) (startIndex : Nat) : Outcome Nat :=
  match buffer[startIndex]?, buffer[startIndex + 1]? with
  | some hi, some lo => Outcome.returns (((0 ||| (hi <<< 8)) ||| lo) % 65536)
  | _, _ => Outcome.outOfBounds

/-- Embeds `TFMiniPlus::readInt32FromBuffer(buffer, startIndex)`: the four bytes
shifted by 24, 16, 8 and 0 bits and or-ed into a `uint32_t`. -/
def readInt32FromBuffer (buffer : List Nat) (startIndex : Nat) : Outcome Nat :=
  match buffer[startIndex]?, buffer[startIndex + 1]?, buffer[startIndex + 2]?,
      buffer[startIndex + 3]? with
  | some b0, some b1, some b2, some b3 =>
    Outcome.returns (((((0 ||| (b0 <<< 24)) ||| (b1 <<< 16)) ||| (b2 <<< 8)) ||| b3) % 2 ^ 32)
  | _, _, _, _ => Outcome.outOfBounds

/-- Loop of `readCommandResponse` that rebuilds the frame:
`frame[i] = response[i - 2]` for `remaining` more indices starting at `i`. -/
def readCommandResponse.loop (response : List Nat) : Nat → Nat → List Nat → Outcome (List Nat)
  | 0, _, frame => Outcome.returns frame
  | remaining + 1, i, frame =>
    match response[i - 2]? with
    | some b =>
      if i < frame.length then
        readCommandResponse.loop response remaining (i + 1) (frame.set i b)
      else Outcome.outOfBounds
    | none => Outcome.outOfBounds

/-- Embeds `TFMiniPlus::readCommandResponse(buffer)`. `buffer` is the caller's array
with its current contents, `response` the initial content of the uninitialised
local `uint8_t response[MAX_CMD_RESPONSE_LENGTH]`. Returns the result, the new
contents of the caller's array and the new state. The size handed to
`readBytes` is `length - 2` converted to `size_t`. -/
def readCommandResponse (self : TFMiniPlus) (buffer response : List Nat) :
    Outcome (Bool × List Nat × TFMiniPlus) :=
  (skipToFrameHeader self CMD_FRAME_MARKER).bind fun s1 =>
  let (length, stream2) := s1._stream.readByte 0x00
  (stream2.readBytes response (sizeOfDifference length 2)).bind fun (response1, stream3) =>
  (readCommandResponse.loop response1 (length - 2) 2
      (CMD_FRAME_MARKER :: length :: List.replicate (MAX_CMD_RESPONSE_LENGTH - 2) 0)).bind
    fun frame =>
  (validateChecksum frame length).bind fun valid =>
    if valid then
      (copyBuffer buffer frame length).bind fun buffer1 =>
        Outcome.returns (true, buffer1, { s1 with _stream := stream3 })
    else
      Outcome.returns (false, buffer, { s1 with _stream := stream3 })

/-- Embeds `TFMiniPlus::getVersion()`. `commandResponse` is the initial content of the
uninitialised local `uint8_t commandResponse[7]`, `response` that of the local
array of `readCommandResponse`. -/
def getVersion (self : TFMiniPlus) (commandResponse response : List Nat) :
    Outcome (String × TFMiniPlus) :=
  let buffer := [CMD_FRAME_MARKER, 0x04, 0x01, 0x5F]
  (write self buffer 4).bind fun s1 =>
  (readCommandResponse s1 commandResponse response).bind fun (ok, commandResponse1, s2) =>
    if !ok then Outcome.returns ("Error", s2)
    else
      match commandResponse1[5]?, commandResponse1[4]?, commandResponse1[3]? with
      | some c5, some c4, some c3 =>
        Outcome.returns (toString c5 ++ "." ++ toString c4 ++ "." ++ toString c3, s2)
      | _, _, _ => Outcome.outOfBounds

/-- Embeds `TFMiniPlus::systemReset()`; `commandResponse` has declared size 5. -/
def systemReset (self : TFMiniPlus) (commandResponse response : List Nat) :
    Outcome (Bool × TFMiniPlus) :=
  let buffer := [CMD_FRAME_MARKER, 0x04, 0x02, 0x60]
  (write self buffer 4).bind fun s1 =>
  (readCommandResponse s1 commandResponse response).bind fun (ok, commandResponse1, s2) =>
    if ok then
      match commandResponse1[3]? with
      | some status => Outcome.returns (status == 0x00, s2)
      | none => Outcome.outOfBounds
    else Outcome.returns (false, s2)

/-- Embeds `TFMiniPlus::setFrameRate(framerate)`; `commandResponse` has declared size
6. The initialiser of `buffer[6]` names five bytes, the sixth is zero. The
statement `buffer[6] = generateChecksum(buffer, 5)` addresses the element one
past the end of the array: the six elements of `buffer` keep their values, and
what the store does to the memory behind the array is not followed. -/
def setFrameRate (self : TFMiniPlus) (framerate : Nat) (commandResponse response : List Nat) :
    Outcome (Bool × TFMiniPlus) :=
  let newRateHight := (framerate >>> 8) % 256
  let newRateLow := framerate % 256
  let buffer := [CMD_FRAME_MARKER, 0x06, 0x03, newRateLow, newRateHight, 0x00]
  (generateChecksum buffer 5).bind fun checksum =>
  let buffer1 := buffer.set 6 checksum
  (write self buffer1 6).bind fun s1 =>
  (readCommandResponse s1 commandResponse response).bind fun (ok, commandResponse1, s2) =>
    if ok then
      (readInt16FromBuffer commandResponse1 3).bind fun echoed =>
      (readInt16FromBuffer buffer1 3).bind fun sent =>
        Outcome.returns (echoed == sent, s2)
    else Outcome.returns (false, s2)

/-- Embeds `TFMiniPlus::triggerDetection()`. -/
def triggerDetection (self : TFMiniPlus) : Outcome TFMiniPlus :=
  let buffer := [CMD_FRAME_MARKER, 0x04, 0x04, 0x62]
  write self buffer 4

/-- Embeds `TFMiniPlus::setMeasurementTo(measurement)`; `commandResponse` has declared
size 5. -/
def setMeasurementTo (self : TFMiniPlus) (measurement : Nat)
    (commandResponse response : List Nat) : Outcome (Bool × TFMiniPlus) :=
  let measurementH := (measurement >>> 8) % 256
  let measurementL := measurement % 256
  let buffer := [CMD_FRAME_MARKER, 0x05, 0x05, measurementH, measurementL]
  (write self buffer 5).bind fun s1 =>
  (readCommandResponse s1 commandResponse response).bind fun (ok, commandResponse1, s2) =>
    if ok then
      (readInt16FromBuffer commandResponse1 3).bind fun echoed =>
      (readInt16FromBuffer buffer 3).bind fun sent =>
        Outcome.returns (echoed == sent, s2)
    else Outcome.returns (false, s2)

/-- Embeds `TFMiniPlus::setBaudRate(baud)`; `commandResponse` has declared size 8. The
initialiser of `buffer[8]` names seven bytes, the eighth is zero until the
checksum is stored in it. -/
def setBaudRate (self : TFMiniPlus) (baud : Nat) (commandResponse response : List Nat) :
    Outcome (Bool × TFMiniPlus) :=
  let baud_b4 := (baud >>> 24) % 256
  let baud_b3 := (baud >>> 16) % 256
  let baud_b2 := (baud >>> 8) % 256
  let baud_b1 := baud % 256
  let buffer := [CMD_FRAME_MARKER, 0x08, 0x06, baud_b1, baud_b2, baud_b3, baud_b4, 0x00]
  (generateChecksum buffer 7).bind fun checksum =>
  let buffer1 := buffer.set 7 checksum
  (write self buffer1 8).bind fun s1 =>
  (readCommandResponse s1 commandResponse response).bind fun (ok, commandResponse1, s2) =>
    if ok then
      (readInt32FromBuffer commandResponse1 3).bind fun echoed =>
      (readInt32FromBuffer buffer1 3).bind fun sent =>
        Outcome.returns (echoed == sent, s2)
    else Outcome.returns (false, s2)

/-- Embeds `TFMiniPlus::setEnabled(state)`; `commandResponse` has declared size 5. -/
def setEnabled (self : TFMiniPlus) (state : Bool) (commandResponse response : List Nat) :
    Outcome (Bool × TFMiniPlus) :=
  let buffer := [CMD_FRAME_MARKER, 0x05, 0x07, 0x00, 0x00]
  let buffer1 := if state then (buffer.set 3 0x00).set 4 0x66 else (buffer.set 3 0x01).set 4 0x67
  (write self buffer1 5).bind fun s1 =>
  (readCommandResponse s1 commandResponse response).bind fun (ok, commandResponse1, s2) =>
    if ok then
      (readInt16FromBuffer commandResponse1 3).bind fun echoed =>
      (readInt16FromBuffer buffer1 3).bind fun sent =>
        Outcome.returns (echoed == sent, s2)
    else Outcome.returns (false, s2)

/-- Embeds `TFMiniPlus::restoreFactorySettings()`; `commandResponse` has declared size
4. -/
def restoreFactorySettings (self : TFMiniPlus) (commandResponse response : List Nat) :
    Outcome (Bool × TFMiniPlus) :=
  let buffer := [CMD_FRAME_MARKER, 0x04, 0x10, 0x6E]
  (write self buffer 4).bind fun s1 =>
  (readCommandResponse s1 commandResponse response).bind fun (ok, commandResponse1, s2) =>
    if ok then
      match commandResponse1[3]? with
      | some status => Outcome.returns (status == 0x00, s2)
      | none => Outcome.outOfBounds
    else Outcome.returns (false, s2)

/-- Embeds `TFMiniPlus::saveSettings()`; `commandResponse` has declared size 4. -/
def saveSettings (self : TFMiniPlus) (commandResponse response : List Nat) :
    Outcome (Bool × TFMiniPlus) :=
  let buffer := [CMD_FRAME_MARKER, 0x04, 0x11, 0x6F]
  (write self buffer 4).bind fun s1 =>
  (readCommandResponse s1 commandResponse response).bind fun (ok, commandResponse1, s2) =>
    if ok then
      match commandResponse1[3]? with
      | some status => Outcome.returns (status == 0x00, s2)
      | none => Outcome.outOfBounds
    else Outcome.returns (false, s2)

end TFMiniPlus

/-! ## Checksum primitive -/

namespace TFMiniPlus

theorem generateChecksum_loop_eq (buffer : List Nat) (n i sum : Nat)
    (hi : i + n ≤ buffer.length) (hsum : sum < 65536) :
    generateChecksum.loop buffer n i sum
      = Outcome.returns ((sum + ((buffer.drop i).take n).sum) % 65536) := by
  induction n generalizing i sum with
  | zero => simp [generateChecksum.loop, Nat.mod_eq_of_lt hsum]
  | succ n ih =>
    have hlt : i < buffer.length := by omega
    rw [generateChecksum.loop, List.getElem?_eq_getElem hlt]
    simp only []
    rw [ih (i + 1) ((sum + buffer[i]) % 65536) (by omega) (Nat.mod_lt _ (by norm_num)),
      List.drop_eq_getElem_cons hlt, List.take_succ_cons, List.sum_cons]
    congr 1
    omega

theorem generateChecksum_eq (buffer : List Nat) (n : Nat) (hn : n ≤ buffer.length) :
    generateChecksum buffer n = Outcome.returns ((buffer.take n).sum % 256) := by
  unfold generateChecksum
  rw [generateChecksum_loop_eq buffer n 0 0 (by omega) (by norm_num)]
  simp only [Outcome.bind, List.drop_zero, Nat.zero_add]
  congr 1
  omega

theorem validateChecksum_eq (dataBuffer : List Nat) (n : Nat) (h1 : 1 ≤ n) (h255 : n ≤ 255)
    (hn : n ≤ dataBuffer.length) :
    validateChecksum dataBuffer n
      = Outcome.returns ((dataBuffer.take (n - 1)).sum % 256 == dataBuffer.getD (n - 1) 0) := by
  have hmod : (n + 255) % 256 = n - 1 := by omega
  have hlt : n - 1 < dataBuffer.length := by omega
  unfold validateChecksum
  rw [hmod, generateChecksum_eq dataBuffer (n - 1) (by omega)]
  simp only [Outcome.bind]
  rw [if_neg (by omega), List.getElem?_eq_getElem hlt]
  simp [List.getD_eq_getElem?_getD, List.getElem?_eq_getElem hlt]


theorem sum_set_add (l : List Nat) (j v : Nat) (hj : j < l.length) :
    (l.set j v).sum + l[j] = l.sum + v := by
  induction l generalizing j with
  | nil => simp at hj
  | cons a t ih =>
    cases j with
    | zero => simp; omega
    | succ j =>
      have := ih j (by simpa using hj)
      simp only [List.set_cons_succ, List.sum_cons, List.getElem_cons_succ]
      omega

set_option maxRecDepth 100000 in
theorem xor_two_pow_byte : ∀ b < 256, ∀ k < 8,
    (b ^^^ 2 ^ k) = b + 2 ^ k ∨ (b ^^^ 2 ^ k) + 2 ^ k = b := by
  decide

/-- C1. Appending the checksum of a payload of at most 254 bytes gives a frame
that `validateChecksum`, called with the length of the frame, accepts. -/
theorem validateChecksum_append_generateChecksum (p : List Nat) (hp : p.length ≤ 254) :
    ∃ c, generateChecksum p p.length = Outcome.returns c ∧
      validateChecksum (p ++ [c]) (p.length + 1) = Outcome.returns true := by
  refine ⟨(p.take p.length).sum % 256, generateChecksum_eq p p.length (Nat.le_refl _), ?_⟩
  rw [validateChecksum_eq _ _ (by omega) (by omega) (by simp)]
  simp

theorem validateChecksum_append_generateChecksum_witness :
    ∃ c, generateChecksum [0x59, 0x10, 0x00] [0x59, 0x10, 0x00].length = Outcome.returns c ∧
      validateChecksum ([0x59, 0x10, 0x00] ++ [c]) ([0x59, 0x10, 0x00].length + 1)
        = Outcome.returns true :=
  validateChecksum_append_generateChecksum [0x59, 0x10, 0x00] (by decide)

/-- C2. For a length `n` of at most 255 within the buffer, `generateChecksum`
returns the sum of the first `n` bytes modulo 256: neither the 16-bit
accumulator nor the final cast to 8 bits changes the residue. -/
theorem generateChecksum_eq_sum_mod (buffer : List Nat) (n : Nat) (_ : n ≤ 255)
    (hn : n ≤ buffer.length) :
    generateChecksum buffer n = Outcome.returns ((buffer.take n).sum % 256) :=
  generateChecksum_eq buffer n hn

theorem generateChecksum_eq_sum_mod_witness :
    generateChecksum [200, 100, 7] 2 = Outcome.returns (([200, 100, 7].take 2).sum % 256) :=
  generateChecksum_eq_sum_mod [200, 100, 7] 2 (by decide) (by decide)


/-- C3. Flipping one bit of one byte of a frame of 1 to 255 bytes that
`validateChecksum` accepts gives a frame that `validateChecksum` rejects. -/
theorem validateChecksum_flip_bit (f : List Nat) (j k : Nat) (h255 : f.length ≤ 255)
    (hbytes : ∀ b ∈ f, b < 256)
    (hvalid : validateChecksum f f.length = Outcome.returns true)
    (hj : j < f.length) (hk : k < 8) :
    validateChecksum (f.set j (f[j] ^^^ 2 ^ k)) f.length = Outcome.returns false := by
  have hb : f[j] < 256 := hbytes _ (List.getElem_mem hj)
  have hx := xor_two_pow_byte f[j] hb k hk
  have hpow : 0 < 2 ^ k ∧ 2 ^ k < 256 := by
    constructor
    · exact Nat.two_pow_pos k
    · calc 2 ^ k < 2 ^ 8 := Nat.pow_lt_pow_right (by norm_num) hk
        _ = 256 := by norm_num
  generalize hv : (f[j] ^^^ 2 ^ k) = v at hx ⊢
  generalize 2 ^ k = d at hx hpow
  rw [validateChecksum_eq f f.length (by omega) h255 (Nat.le_refl _)] at hvalid
  have hvalid2 : (List.take (f.length - 1) f).sum % 256 = f.getD (f.length - 1) 0 := by
    simpa using hvalid
  have hlast : f.length - 1 < f.length := by omega
  rw [validateChecksum_eq _ f.length (by omega) h255 (by simp)]
  rw [List.getD_eq_getElem?_getD, List.getElem?_eq_getElem hlast] at hvalid2
  rw [List.getD_eq_getElem?_getD, List.getElem?_eq_getElem (by simpa using hlast)]
  simp only [Option.getD_some, List.set_take] at hvalid2 ⊢
  congr 1
  by_cases hjl : j = f.length - 1
  · subst hjl
    rw [List.set_eq_of_length_le (by simp), List.getElem_set_self]
    simp only [beq_eq_false_iff_ne, ne_eq]
    omega
  · have hjt : j < (List.take (f.length - 1) f).length := by
      simp only [List.length_take]
      omega
    have hsum := sum_set_add (List.take (f.length - 1) f) j v hjt
    rw [List.getElem_take] at hsum
    rw [List.getElem_set_ne (by omega)]
    simp only [beq_eq_false_iff_ne, ne_eq]
    omega

theorem validateChecksum_flip_bit_witness :
    validateChecksum ([0x59, 0x10, 0x69].set 1 ([0x59, 0x10, 0x69][1] ^^^ 2 ^ 3))
      [0x59, 0x10, 0x69].length = Outcome.returns false :=
  validateChecksum_flip_bit [0x59, 0x10, 0x69] 1 3 (by decide) (by decide) (by decide)
    (by decide) (by decide)

/-! ## Frame synchroniser -/

theorem skipToFrameHeader_loop_self (m : Nat) (rest : List Nat) :
    skipToFrameHeader.loop m m rest = Outcome.returns rest := by
  cases rest <;> simp [skipToFrameHeader.loop]

theorem skipToFrameHeader_loop_eq (m : Nat) (g rest : List Nat) (cur : Nat) (hcur : cur ≠ m)
    (hg : ∀ b ∈ g, b ≠ m) :
    skipToFrameHeader.loop m cur (g ++ m :: rest) = Outcome.returns rest := by
  induction g generalizing cur with
  | nil => simp [skipToFrameHeader.loop, hcur, skipToFrameHeader_loop_self]
  | cons a t ih =>
    simp only [List.cons_append, skipToFrameHeader.loop, ne_eq, hcur, not_false_eq_true,
      if_true]
    exact ih a (hg a (by simp)) (fun b hb => hg b (by simp [hb]))

theorem skipToFrameHeader_eq (m : Nat) (g rest written rdb : List Nat) (hm : m ≠ 0)
    (hg : ∀ b ∈ g, b ≠ m) :
    skipToFrameHeader ⟨⟨g ++ m :: rest, written⟩, rdb⟩ m
      = Outcome.returns ⟨⟨rest, written⟩, rdb⟩ := by
  unfold skipToFrameHeader
  simp only []
  rw [skipToFrameHeader_loop_eq m g rest 0 (Ne.symm hm) hg]
  rfl

/-- C4. With the marker `m` equal to 0x59 or 0x5A and the transport holding
`g ++ [m] ++ rest`, where no byte of `g` equals `m`, `skipToFrameHeader m`
returns, and it has read the `g.length + 1` bytes up to and including the
marker: exactly `rest` is left unread, and nothing else changes. -/
theorem skipToFrameHeader_consumes_through_marker (m : Nat) (g rest written rdb : List Nat)
    (hm : m = 0x59 ∨ m = 0x5A) (hg : ∀ b ∈ g, b ≠ m) :
    skipToFrameHeader ⟨⟨g ++ [m] ++ rest, written⟩, rdb⟩ m
        = Outcome.returns ⟨⟨rest, written⟩, rdb⟩ ∧
      (g ++ [m] ++ rest).drop (g.length + 1) = rest := by
  have hm0 : m ≠ 0 := by rcases hm with h | h <;> omega
  constructor
  · simpa using skipToFrameHeader_eq m g rest written rdb hm0 hg
  · simp

theorem skipToFrameHeader_consumes_through_marker_witness :
    skipToFrameHeader ⟨⟨[0x00, 0x5A, 0x07] ++ [0x59] ++ [0x59, 0x01], []⟩, []⟩ 0x59
        = Outcome.returns ⟨⟨[0x59, 0x01], []⟩, []⟩ ∧
      ([0x00, 0x5A, 0x07] ++ [0x59] ++ [0x59, 0x01]).drop ([0x00, 0x5A, 0x07].length + 1)
        = [0x59, 0x01] :=
  skipToFrameHeader_consumes_through_marker 0x59 [0x00, 0x5A, 0x07] [0x59, 0x01] [] []
    (Or.inl rfl) (by decide)


/-! ## Buffer loops -/

theorem take_succ_set (l : List Nat) (i b : Nat) (hi : i < l.length) :
    (l.set i b).take (i + 1) = l.take i ++ [b] := by
  rw [List.take_succ, List.set_take, List.getElem?_set_self hi,
    List.set_eq_of_length_le (by simp)]
  simp

theorem drop_succ_set (l : List Nat) (i n b : Nat) :
    (l.set i b).drop (i + 1 + n) = l.drop (i + (n + 1)) := by
  rw [List.drop_set_of_lt b l (by omega)]
  congr 1
  omega

theorem resetBuffer_loop_eq (n i : Nat) (buffer : List Nat) (hi : i + n ≤ buffer.length) :
    resetBuffer.loop n i buffer
      = Outcome.returns (buffer.take i ++ List.replicate n 0 ++ buffer.drop (i + n)) := by
  induction n generalizing i buffer with
  | zero => simp [resetBuffer.loop]
  | succ n ih =>
    have hlt : i < buffer.length := by omega
    rw [resetBuffer.loop, if_pos hlt, ih (i + 1) _ (by simp; omega), take_succ_set _ _ _ hlt,
      drop_succ_set]
    simp [List.replicate_succ]

theorem resetBuffer_eq (buffer : List Nat) (n : Nat) (hn : buffer.length = n) :
    resetBuffer buffer n = Outcome.returns (List.replicate n 0) := by
  unfold resetBuffer
  rw [resetBuffer_loop_eq n 0 buffer (by omega)]
  simp [← hn]

theorem copyBuffer_loop_eq (buffer2 : List Nat) (n i : Nat) (buffer1 : List Nat)
    (h1 : i + n ≤ buffer1.length) (h2 : i + n ≤ buffer2.length) :
    copyBuffer.loop buffer2 n i buffer1
      = Outcome.returns (buffer1.take i ++ (buffer2.drop i).take n ++ buffer1.drop (i + n)) := by
  induction n generalizing i buffer1 with
  | zero => simp [copyBuffer.loop]
  | succ n ih =>
    have hlt1 : i < buffer1.length := by omega
    have hlt2 : i < buffer2.length := by omega
    rw [copyBuffer.loop, List.getElem?_eq_getElem hlt2]
    simp only []
    rw [if_pos hlt1, ih (i + 1) _ (by simp; omega) (by omega), take_succ_set _ _ _ hlt1,
      drop_succ_set, List.drop_eq_getElem_cons hlt2, List.take_succ_cons]
    simp

theorem copyBuffer_eq (buffer1 buffer2 : List Nat) (n : Nat) (h1 : n ≤ buffer1.length)
    (h2 : n ≤ buffer2.length) :
    copyBuffer buffer1 buffer2 n = Outcome.returns (buffer2.take n ++ buffer1.drop n) := by
  unfold copyBuffer
  rw [copyBuffer_loop_eq buffer2 n 0 buffer1 (by omega) (by omega)]
  simp

theorem readData_loop_eq (buffer : List Nat) (n i : Nat) (frame : List Nat) (hi : 1 ≤ i)
    (h1 : i + n ≤ frame.length) (h2 : i - 1 + n ≤ buffer.length) :
    readData.loop buffer n i frame
      = Outcome.returns (frame.take i ++ (buffer.drop (i - 1)).take n ++ frame.drop (i + n)) := by
  induction n generalizing i frame with
  | zero => simp [readData.loop]
  | succ n ih =>
    have hlt1 : i < frame.length := by omega
    have hlt2 : i - 1 < buffer.length := by omega
    have hsub : i + 1 - 1 = i - 1 + 1 := by omega
    rw [readData.loop, List.getElem?_eq_getElem hlt2]
    simp only []
    rw [if_pos hlt1, ih (i + 1) _ (by omega) (by simp; omega) (by omega),
      take_succ_set _ _ _ hlt1, drop_succ_set, List.drop_eq_getElem_cons hlt2,
      List.take_succ_cons, hsub]
    simp

theorem readCommandResponse_loop_eq (response : List Nat) (n i : Nat) (frame : List Nat)
    (hi : 2 ≤ i) (h1 : i + n ≤ frame.length) (h2 : i - 2 + n ≤ response.length) :
    readCommandResponse.loop response n i frame
      = Outcome.returns
          (frame.take i ++ (response.drop (i - 2)).take n ++ frame.drop (i + n)) := by
  induction n generalizing i frame with
  | zero => simp [readCommandResponse.loop]
  | succ n ih =>
    have hlt1 : i < frame.length := by omega
    have hlt2 : i - 2 < response.length := by omega
    have hsub : i + 1 - 2 = i - 2 + 1 := by omega
    rw [readCommandResponse.loop, List.getElem?_eq_getElem hlt2]
    simp only []
    rw [if_pos hlt1, ih (i + 1) _ (by omega) (by simp; omega) (by omega),
      take_succ_set _ _ _ hlt1, drop_succ_set, List.drop_eq_getElem_cons hlt2,
      List.take_succ_cons, hsub]
    simp

theorem write_loop_eq (buffer : List Nat) (n i : Nat) (s : Arduino.Stream)
    (h : i + n ≤ buffer.length) :
    write.loop buffer n i s
      = Outcome.returns ⟨s.pending, s.written ++ (buffer.drop i).take n⟩ := by
  induction n generalizing i s with
  | zero => simp [write.loop]
  | succ n ih =>
    have hlt : i < buffer.length := by omega
    rw [write.loop, List.getElem?_eq_getElem hlt]
    simp only []
    rw [ih (i + 1) _ (by omega), List.drop_eq_getElem_cons hlt, List.take_succ_cons]
    simp [Arduino.Stream.write]

theorem write_eq (self : TFMiniPlus) (buffer : List Nat) (n : Nat) (h : n ≤ buffer.length) :
    write self buffer n
      = Outcome.returns
          ⟨⟨self._stream.pending, self._stream.written ++ buffer.take n⟩,
            self._readDataBuffer⟩ := by
  unfold write
  rw [write_loop_eq buffer n 0 self._stream (by omega)]
  simp [Outcome.bind]


/-! ## Data frames -/

theorem readBytes_exact (body rest written buffer : List Nat) (n : Nat) (hn : body.length = n)
    (hb : n ≤ buffer.length) :
    Arduino.Stream.readBytes ⟨body ++ rest, written⟩ buffer n
      = Outcome.returns (body ++ buffer.drop n, ⟨rest, written⟩) := by
  unfold Arduino.Stream.readBytes
  simp only [List.take_left' hn, List.drop_left' hn, hn]
  rw [if_pos hb]

theorem readData_eq (g body rest written rdb buffer : List Nat) (hg : ∀ b ∈ g, b ≠ 0x59)
    (hbody : body.length = 8) (hrdb : rdb.length = 9) (hbuffer : buffer.length = 9) :
    readData ⟨⟨g ++ 0x59 :: (body ++ rest), written⟩, rdb⟩ buffer
      = Outcome.returns
          (((0x59 :: body).take 8).sum % 256 == body.getD 7 0,
            ⟨⟨rest, written⟩,
              if ((0x59 :: body).take 8).sum % 256 == body.getD 7 0 then 0x59 :: body
              else List.replicate 9 0⟩) := by
  unfold readData
  simp only [DATA_FRAME_MARKER, DATA_FRAME_LENGTH]
  rw [resetBuffer_eq rdb 9 hrdb]
  simp only [Outcome.bind]
  rw [skipToFrameHeader_eq 0x59 g (body ++ rest) written _ (by norm_num) hg]
  simp only [Outcome.bind]
  rw [readBytes_exact body rest written buffer 8 hbody (by omega)]
  simp only [Outcome.bind]
  rw [readData_loop_eq _ 8 1 _ (by norm_num) (by simp) (by simp; omega)]
  simp only [Outcome.bind]
  have hframe : List.take 1 (0x59 :: List.replicate (9 - 1) 0)
      ++ List.take 8 (List.drop (1 - 1) (body ++ List.drop 8 buffer))
      ++ List.drop (1 + 8) (0x59 :: List.replicate (9 - 1) 0) = 0x59 :: body := by
    simp [List.take_left' hbody]
  rw [hframe, validateChecksum_eq _ 9 (by norm_num) (by norm_num) (by simp; omega)]
  simp only [Outcome.bind]
  have hget : (0x59 :: body).getD (9 - 1) 0 = body.getD 7 0 := by simp
  rw [hget]
  by_cases hok : (((0x59 :: body).take 8).sum % 256 == body.getD 7 0) = true
  · have hcopy := copyBuffer_eq (List.replicate 9 0) (0x59 :: body) 9 (by simp) (by simp; omega)
    have hfull : List.take 9 (0x59 :: body) = 0x59 :: body :=
      List.take_of_length_le (by simp; omega)
    simp only [show (9 : Nat) - 1 = 8 from rfl, hok, if_true, hcopy, Outcome.bind, hfull]
    simp
  · simp only [show (9 : Nat) - 1 = 8 from rfl, hok]
    simp

theorem lor_shiftLeft_eight (lo hi : Nat) (hlo : lo < 256) :
    (lo ||| (hi <<< 8)) = lo + 256 * hi := by
  rw [Nat.shiftLeft_eq, Nat.lor_comm, Nat.mul_comm hi (2 ^ 8),
    ← Nat.mul_add_lt_is_or (by simpa using hlo) hi]
  omega

/-- C5. With the transport holding `g ++ [0x59] ++ body ++ rest`, where `g`
has no 0x59 and `body` has eight bytes, `readData` returns, leaves exactly
`rest` unread, returns true iff `body[7]` is `0x59 + body[0] + ... + body[6]`
modulo 256, and on true the last-frame buffer is `[0x59] ++ body`. -/
theorem readData_decodes_frame (g body rest written rdb buffer : List Nat)
    (hg : ∀ b ∈ g, b ≠ 0x59) (hbody : body.length = 8) (hrdb : rdb.length = 9)
    (hbuffer : buffer.length = 9) :
    ∃ ok s, readData ⟨⟨g ++ [0x59] ++ body ++ rest, written⟩, rdb⟩ buffer
        = Outcome.returns (ok, s) ∧
      s._stream.pending = rest ∧
      (ok = true ↔ body.getD 7 0 = (0x59 + (body.take 7).sum) % 256) ∧
      (ok = true → s._readDataBuffer = [0x59] ++ body) := by
  have h := readData_eq g body rest written rdb buffer hg hbody hrdb hbuffer
  have hin : g ++ [0x59] ++ body ++ rest = g ++ 0x59 :: (body ++ rest) := by simp
  rw [hin]
  refine ⟨_, _, h, rfl, ?_, ?_⟩
  · simp only [beq_iff_eq, List.take_succ_cons, List.sum_cons]
    constructor <;> intro h' <;> omega
  · intro hok
    simp only [hok, if_true]
    rfl

theorem readData_decodes_frame_witness :
    ∃ ok s, readData
        ⟨⟨[0x01, 0x02] ++ [0x59] ++ [0x10, 0x00, 0x20, 0x00, 0x30, 0x00, 0x40, 0xF9]
            ++ [0x07], []⟩, [9, 9, 9, 9, 9, 9, 9, 9, 9]⟩ [5, 5, 5, 5, 5, 5, 5, 5, 5]
        = Outcome.returns (ok, s) ∧
      s._stream.pending = [0x07] ∧
      (ok = true ↔ [0x10, 0x00, 0x20, 0x00, 0x30, 0x00, 0x40, 0xF9].getD 7 0
        = (0x59 + ([0x10, 0x00, 0x20, 0x00, 0x30, 0x00, 0x40, 0xF9].take 7).sum) % 256) ∧
      (ok = true → s._readDataBuffer
        = [0x59] ++ [0x10, 0x00, 0x20, 0x00, 0x30, 0x00, 0x40, 0xF9]) :=
  readData_decodes_frame [0x01, 0x02] [0x10, 0x00, 0x20, 0x00, 0x30, 0x00, 0x40, 0xF9] [0x07] []
    [9, 9, 9, 9, 9, 9, 9, 9, 9] [5, 5, 5, 5, 5, 5, 5, 5, 5] (by decide) (by decide) (by decide)
    (by decide)

/-- C6, as the claim states it, fails: after a successful `readData` of the
frame `59 10 00 20 00 30 00 40 F9` the getters do not give 16, 32, 48 and
-250 (the values of bytes 1-2, 3-4 and 5-6). -/
theorem getters_example_frame_not_offsets_1_3_5 :
    ∃ s, readData ⟨⟨[0x59, 0x10, 0x00, 0x20, 0x00, 0x30, 0x00, 0x40, 0xF9], []⟩,
          [0, 0, 0, 0, 0, 0, 0, 0, 0]⟩ [0, 0, 0, 0, 0, 0, 0, 0, 0] = Outcome.returns (true, s) ∧
      getDistance s ≠ 16 ∧ getSignalStrength s ≠ 32 ∧ getSensorRawTempreture s ≠ 48 ∧
      getSensorTempreture s ≠ -250 := by
  refine ⟨⟨⟨[], []⟩, [0x59, 0x10, 0x00, 0x20, 0x00, 0x30, 0x00, 0x40, 0xF9]⟩, by decide,
    by decide, by decide, by decide, ?_⟩
  have hraw : getSensorRawTempreture
      ⟨⟨[], []⟩, [0x59, 0x10, 0x00, 0x20, 0x00, 0x30, 0x00, 0x40, 0xF9]⟩ = 16384 := by decide
  rw [getSensorTempreture, hraw]
  norm_num


theorem getD_lt_of_bytes (l : List Nat) (hbytes : ∀ b ∈ l, b < 256) (i : Nat) :
    l.getD i 0 < 256 := by
  by_cases hi : i < l.length
  · rw [List.getD_eq_getElem?_getD, List.getElem?_eq_getElem hi]
    exact hbytes _ (List.getElem_mem hi)
  · rw [List.getD_eq_getElem?_getD, List.getElem?_eq_none (by omega)]
    simp

theorem uint16_of_bytes (l : List Nat) (hbytes : ∀ b ∈ l, b < 256) (i j : Nat) :
    (l.getD i 0 ||| (l.getD j 0 <<< 8)) % 65536 = l.getD i 0 + 256 * l.getD j 0 := by
  have hi := getD_lt_of_bytes l hbytes i
  have hj := getD_lt_of_bytes l hbytes j
  rw [lor_shiftLeft_eight _ _ hi]
  omega

/-- C6, amended. After `readData` has read a checksum-valid nine-byte frame
that starts with 0x59, `getDistance` is byte 2 plus 256 times byte 3,
`getSignalStrength` is byte 4 plus 256 times byte 5, `getSensorRawTempreture`
is byte 6 plus 256 times byte 7, and `getSensorTempreture` is the raw
temperature divided by 8, minus 256. -/
theorem getters_after_readData (g frame rest written rdb buffer : List Nat)
    (hg : ∀ b ∈ g, b ≠ 0x59) (hlen : frame.length = 9) (h0 : frame.getD 0 0 = 0x59)
    (hbytes : ∀ b ∈ frame, b < 256)
    (hvalid : validateChecksum frame 9 = Outcome.returns true)
    (hrdb : rdb.length = 9) (hbuffer : buffer.length = 9) :
    ∃ s, readData ⟨⟨g ++ frame ++ rest, written⟩, rdb⟩ buffer = Outcome.returns (true, s) ∧
      getDistance s = frame.getD 2 0 + 256 * frame.getD 3 0 ∧
      getSignalStrength s = frame.getD 4 0 + 256 * frame.getD 5 0 ∧
      getSensorRawTempreture s = frame.getD 6 0 + 256 * frame.getD 7 0 ∧
      getSensorTempreture s = ((frame.getD 6 0 + 256 * frame.getD 7 0 : Nat) : ℚ) / 8 - 256 := by
  rcases frame with _ | ⟨a0, body⟩
  · simp at hlen
  · simp only [List.getD_cons_zero] at h0
    subst h0
    have hbody : body.length = 8 := by simpa using hlen
    have h := readData_eq g body rest written rdb buffer hg hbody hrdb hbuffer
    rw [validateChecksum_eq _ 9 (by norm_num) (by norm_num) (by simp; omega)] at hvalid
    have hok : (((0x59 :: body).take 8).sum % 256 == body.getD 7 0) = true := by
      simpa using hvalid
    rw [hok] at h
    have hin : g ++ 0x59 :: body ++ rest = g ++ 0x59 :: (body ++ rest) := by simp
    rw [hin]
    refine ⟨_, h, ?_, ?_, ?_, ?_⟩
    · simp only [getDistance, if_true]
      exact uint16_of_bytes _ hbytes 2 3
    · simp only [getSignalStrength, if_true]
      exact uint16_of_bytes _ hbytes 4 5
    · simp only [getSensorRawTempreture, if_true]
      exact uint16_of_bytes _ hbytes 6 7
    · simp only [getSensorTempreture, getSensorRawTempreture, if_true]
      rw [uint16_of_bytes _ hbytes 6 7]

theorem getters_after_readData_witness :
    ∃ s, readData ⟨⟨[] ++ [0x59, 0x10, 0x00, 0x20, 0x00, 0x30, 0x00, 0x40, 0xF9] ++ [], []⟩,
          [0, 0, 0, 0, 0, 0, 0, 0, 0]⟩ [0, 0, 0, 0, 0, 0, 0, 0, 0] = Outcome.returns (true, s) ∧
      getDistance s = 8192 ∧ getSignalStrength s = 12288 ∧ getSensorRawTempreture s = 16384 ∧
      getSensorTempreture s = 1792 := by
  obtain ⟨s, h1, h2, h3, h4, h5⟩ :=
    getters_after_readData [] [0x59, 0x10, 0x00, 0x20, 0x00, 0x30, 0x00, 0x40, 0xF9] [] []
      [0, 0, 0, 0, 0, 0, 0, 0, 0] [0, 0, 0, 0, 0, 0, 0, 0, 0] (by decide) (by decide)
      (by decide) (by decide) (by decide) (by decide) (by decide)
  refine ⟨s, h1, h2, h3, h4, ?_⟩
  rw [h5]
  norm_num

/-! ## Command responses -/

theorem bind_returns {α β : Type} (a : α) (f : α → Outcome β) :
    (Outcome.returns a).bind f = f a := rfl

theorem sizeOfDifference_eq (x k : Nat) (hk : k ≤ x) (hx : x < 2 ^ 32) :
    sizeOfDifference x k = x - k := by
  unfold sizeOfDifference
  norm_num at hx ⊢
  omega

theorem readCommandResponse_eq (g body rest written rdb buffer response : List Nat) (L : Nat)
    (hg : ∀ b ∈ g, b ≠ 0x5A) (h2 : 2 ≤ L) (h8 : L ≤ 8) (hbody : body.length = L - 2)
    (hresponse : response.length = 8) (hbuffer : L ≤ buffer.length) :
    readCommandResponse ⟨⟨g ++ 0x5A :: L :: (body ++ rest), written⟩, rdb⟩ buffer response
      = Outcome.returns
          ((((0x5A :: L :: body).take (L - 1)).sum % 256 == (0x5A :: L :: body).getD (L - 1) 0),
            (if (((0x5A :: L :: body).take (L - 1)).sum % 256
                == (0x5A :: L :: body).getD (L - 1) 0) then
              0x5A :: L :: body ++ buffer.drop L
            else buffer),
            ⟨⟨rest, written⟩, rdb⟩) := by
  have hF : (0x5A :: L :: body).length = L := by simp [hbody]; omega
  unfold readCommandResponse
  simp only [CMD_FRAME_MARKER, MAX_CMD_RESPONSE_LENGTH]
  rw [skipToFrameHeader_eq 0x5A g (L :: (body ++ rest)) written _ (by norm_num) hg]
  rw [bind_returns]
  simp only [Arduino.Stream.readByte]
  rw [sizeOfDifference_eq L 2 h2 (by norm_num; omega),
    readBytes_exact body rest written response (L - 2) hbody (by omega)]
  rw [bind_returns]
  rw [readCommandResponse_loop_eq _ (L - 2) 2 _ (by norm_num) (by simp; omega)
    (by simp; omega)]
  rw [bind_returns]
  have hframe : List.take 2 (0x5A :: L :: List.replicate (8 - 2) 0)
      ++ List.take (L - 2) (List.drop (2 - 2) (body ++ List.drop (L - 2) response))
      ++ List.drop (2 + (L - 2)) (0x5A :: L :: List.replicate (8 - 2) 0)
      = (0x5A :: L :: body) ++ List.replicate (8 - L) 0 := by
    have h22 : 2 + (L - 2) = (L - 2) + 2 := by omega
    simp only [List.take_succ_cons, List.take_zero, Nat.sub_self, List.drop_zero,
      List.take_left' hbody, h22, List.drop_succ_cons, List.drop_replicate, List.cons_append,
      List.nil_append]
    congr 4
    omega
  rw [hframe, validateChecksum_eq _ L (by omega) (by omega) (by simp; omega)]
  rw [bind_returns]
  have htake : List.take (L - 1) ((0x5A :: L :: body) ++ List.replicate (8 - L) 0)
      = List.take (L - 1) (0x5A :: L :: body) :=
    List.take_append_of_le_length (by omega)
  have hget : ((0x5A :: L :: body) ++ List.replicate (8 - L) 0).getD (L - 1) 0
      = (0x5A :: L :: body).getD (L - 1) 0 :=
    List.getD_append _ _ _ _ (by omega)
  rw [htake, hget]
  by_cases hok : (((0x5A :: L :: body).take (L - 1)).sum % 256
      == (0x5A :: L :: body).getD (L - 1) 0) = true
  · have hcopy := copyBuffer_eq buffer ((0x5A :: L :: body) ++ List.replicate (8 - L) 0) L
      hbuffer (by simp; omega)
    rw [List.take_left' hF] at hcopy
    rw [hok, if_pos rfl, hcopy, bind_returns]
    simp
  · rw [Bool.not_eq_true] at hok
    rw [hok]
    simp

/-- C7. With the transport holding `g ++ [0x5A, L] ++ body ++ rest`, where `g`
has no 0x5A, `2 ≤ L ≤ 8`, `body` has `L - 2` bytes and the caller's array
holds at least `L` bytes, `readCommandResponse` returns, leaves exactly `rest`
unread, returns true iff the last byte of `[0x5A, L] ++ body` is the checksum
of its first `L - 1` bytes, and on true the first `L` bytes of the caller's
array are `[0x5A, L] ++ body`. -/
theorem readCommandResponse_decodes_frame (g body rest written rdb buffer response : List Nat)
    (L : Nat) (hg : ∀ b ∈ g, b ≠ 0x5A) (h2 : 2 ≤ L) (h8 : L ≤ 8) (hbody : body.length = L - 2)
    (hresponse : response.length = 8) (hbuffer : L ≤ buffer.length) :
    ∃ ok buffer1 s,
      readCommandResponse ⟨⟨g ++ [0x5A, L] ++ body ++ rest, written⟩, rdb⟩ buffer response
        = Outcome.returns (ok, buffer1, s) ∧
      s._stream.pending = rest ∧
      (ok = true ↔ generateChecksum ([0x5A, L] ++ body) (L - 1)
        = Outcome.returns (([0x5A, L] ++ body).getD (L - 1) 0)) ∧
      (ok = true → buffer1.take L = [0x5A, L] ++ body) := by
  have h := readCommandResponse_eq g body rest written rdb buffer response L hg h2 h8 hbody
    hresponse hbuffer
  have hF : (0x5A :: L :: body).length = L := by simp [hbody]; omega
  have hin : g ++ [0x5A, L] ++ body ++ rest = g ++ 0x5A :: L :: (body ++ rest) := by simp
  rw [hin]
  refine ⟨_, _, _, h, rfl, ?_, ?_⟩
  · rw [generateChecksum_eq _ (L - 1) (by simp; omega)]
    simp
  · intro hok
    rw [hok, if_pos rfl]
    exact List.take_left' hF

theorem readCommandResponse_decodes_frame_witness :
    ∃ ok buffer1 s,
      readCommandResponse
          ⟨⟨[0x00, 0x59] ++ [0x5A, 5] ++ [0x07, 0x01, 0x67] ++ [0x09], []⟩, []⟩
          [1, 1, 1, 1, 1] [3, 3, 3, 3, 3, 3, 3, 3]
        = Outcome.returns (ok, buffer1, s) ∧
      s._stream.pending = [0x09] ∧
      (ok = true ↔ generateChecksum ([0x5A, 5] ++ [0x07, 0x01, 0x67]) (5 - 1)
        = Outcome.returns (([0x5A, 5] ++ [0x07, 0x01, 0x67]).getD (5 - 1) 0)) ∧
      (ok = true → buffer1.take 5 = [0x5A, 5] ++ [0x07, 0x01, 0x67]) :=
  readCommandResponse_decodes_frame [0x00, 0x59] [0x07, 0x01, 0x67] [0x09] [] []
    [1, 1, 1, 1, 1] [3, 3, 3, 3, 3, 3, 3, 3] 5 (by decide) (by decide) (by decide) (by decide)
    (by decide) (by decide)

/-- C8 fails on the code. With a declared length of 1 the size handed to the
payload read is the wrapped value 4294967295, and the bytes after the length
byte are read: two of them are consumed before the call returns false, nine
of them overflow the eight-byte local array. With a declared length of 0
`validateChecksum` is called with length 0 and indexes outside the frame. -/
theorem readCommandResponse_short_length_reads_payload :
    sizeOfDifference 1 2 = 4294967295 ∧
    sizeOfDifference 0 2 = 4294967294 ∧
    readCommandResponse ⟨⟨[0x5A, 0x01, 0xAA, 0xBB], []⟩, [0, 0, 0, 0, 0, 0, 0, 0, 0]⟩
        [0, 0, 0, 0] [0, 0, 0, 0, 0, 0, 0, 0]
      = Outcome.returns (false, [0, 0, 0, 0], ⟨⟨[], []⟩, [0, 0, 0, 0, 0, 0, 0, 0, 0]⟩) ∧
    readCommandResponse ⟨⟨[0x5A, 0x01, 1, 2, 3, 4, 5, 6, 7, 8, 9], []⟩,
          [0, 0, 0, 0, 0, 0, 0, 0, 0]⟩ [0, 0, 0, 0] [0, 0, 0, 0, 0, 0, 0, 0]
      = Outcome.outOfBounds ∧
    readCommandResponse ⟨⟨[0x5A, 0x00], []⟩, [0, 0, 0, 0, 0, 0, 0, 0, 0]⟩
        [0, 0, 0, 0] [0, 0, 0, 0, 0, 0, 0, 0]
      = Outcome.outOfBounds := by
  refine ⟨by decide, by decide, by decide, by decide, by decide⟩

theorem validateChecksum_frame_iff (body : List Nat) (L : Nat) (h2 : 2 ≤ L) (h8 : L ≤ 8)
    (hbody : body.length = L - 2) :
    validateChecksum (0x5A :: L :: body) L = Outcome.returns true ↔
      (((0x5A :: L :: body).take (L - 1)).sum % 256 == (0x5A :: L :: body).getD (L - 1) 0)
        = true := by
  rw [validateChecksum_eq _ L (by omega) (by omega) (by simp [hbody]; omega)]
  simp

theorem getElem?_frame_append (body junk : List Nat) (L i : Nat) (hbody : body.length = L - 2)
    (h2 : 2 ≤ L) (hi : i < L) :
    (0x5A :: L :: body ++ junk)[i]? = some ((0x5A :: L :: body).getD i 0) := by
  have hlt : i < (0x5A :: L :: body).length := by simp [hbody]; omega
  rw [List.getD_eq_getElem?_getD, List.getElem?_eq_getElem hlt, Option.getD_some,
    ← List.getElem?_eq_getElem hlt]
  exact List.getElem?_append_left hlt

/-! ## Echo verification -/

theorem lor_low_byte (a b : Nat) (hb : b < 256) : (256 * a ||| b) = 256 * a + b :=
  (@Nat.mul_add_lt_is_or 8 b hb a).symm

theorem lor_low_two_bytes (a b : Nat) (hb : b < 65536) : (65536 * a ||| b) = 65536 * a + b :=
  (@Nat.mul_add_lt_is_or 16 b hb a).symm

theorem lor_low_three_bytes (a b : Nat) (hb : b < 16777216) :
    (16777216 * a ||| b) = 16777216 * a + b :=
  (@Nat.mul_add_lt_is_or 24 b hb a).symm

theorem shiftLeft_24 (b : Nat) : b <<< 24 = 16777216 * b := by
  rw [Nat.shiftLeft_eq, Nat.mul_comm]

theorem shiftLeft_16 (b : Nat) : b <<< 16 = 65536 * b := by
  rw [Nat.shiftLeft_eq, Nat.mul_comm]

theorem shiftLeft_8 (b : Nat) : b <<< 8 = 256 * b := by
  rw [Nat.shiftLeft_eq, Nat.mul_comm]

theorem lor4_eq (b0 b1 b2 b3 : Nat) (h1 : b1 < 256) (h2 : b2 < 256) (h3 : b3 < 256) :
    ((((0 ||| (b0 <<< 24)) ||| (b1 <<< 16)) ||| (b2 <<< 8)) ||| b3)
      = 16777216 * b0 + 65536 * b1 + 256 * b2 + b3 := by
  rw [Nat.zero_or, Nat.lor_assoc, Nat.lor_assoc, shiftLeft_24, shiftLeft_16, shiftLeft_8,
    lor_low_byte b2 b3 h3, lor_low_two_bytes b1 _ (by omega),
    lor_low_three_bytes b0 _ (by omega)]
  omega

theorem lor2_eq (hi lo : Nat) (hlo : lo < 256) :
    ((0 ||| (hi <<< 8)) ||| lo) = 256 * hi + lo := by
  rw [Nat.zero_or, shiftLeft_8, lor_low_byte hi lo hlo]

theorem readInt16FromBuffer_eq (buffer : List Nat) (s hi lo : Nat)
    (h0 : buffer[s]? = some hi) (h1 : buffer[s + 1]? = some lo) (hhi : hi < 256)
    (hlo : lo < 256) :
    readInt16FromBuffer buffer s = Outcome.returns (256 * hi + lo) := by
  unfold readInt16FromBuffer
  rw [h0, h1]
  simp only []
  rw [lor2_eq _ _ hlo]
  congr 1
  omega

theorem readInt32FromBuffer_eq (buffer : List Nat) (s b0 b1 b2 b3 : Nat)
    (h0 : buffer[s]? = some b0) (h1 : buffer[s + 1]? = some b1)
    (h2 : buffer[s + 2]? = some b2) (h3 : buffer[s + 3]? = some b3)
    (hb0 : b0 < 256) (hb1 : b1 < 256) (hb2 : b2 < 256) (hb3 : b3 < 256) :
    readInt32FromBuffer buffer s
      = Outcome.returns (16777216 * b0 + 65536 * b1 + 256 * b2 + b3) := by
  unfold readInt32FromBuffer
  rw [h0, h1, h2, h3]
  simp only []
  rw [lor4_eq _ _ _ _ hb1 hb2 hb3]
  congr 1
  have h32 : (2 : Nat) ^ 32 = 4294967296 := by norm_num
  rw [h32]
  omega

theorem frame_bytes (body : List Nat) (L : Nat) (h8 : L ≤ 8) (hbytes : ∀ b ∈ body, b < 256) :
    ∀ b ∈ 0x5A :: L :: body, b < 256 := by
  intro b hb
  simp only [List.mem_cons] at hb
  rcases hb with h | h | h
  · omega
  · omega
  · exact hbytes b h

theorem setFrameRate_eq (g body rest written rdb commandResponse response : List Nat)
    (L framerate : Nat) (hg : ∀ b ∈ g, b ≠ 0x5A) (h5 : 5 ≤ L) (h8 : L ≤ 8)
    (hfit : L ≤ commandResponse.length) (hbody : body.length = L - 2)
    (hresponse : response.length = 8) (hbytes : ∀ b ∈ body, b < 256) :
    setFrameRate ⟨⟨g ++ 0x5A :: L :: (body ++ rest), written⟩, rdb⟩ framerate commandResponse
        response
      = Outcome.returns
          ((((0x5A :: L :: body).take (L - 1)).sum % 256 == (0x5A :: L :: body).getD (L - 1) 0)
              && (256 * (0x5A :: L :: body).getD 3 0 + (0x5A :: L :: body).getD 4 0
                  == 256 * (framerate % 256) + (framerate >>> 8) % 256),
            ⟨⟨rest, written ++ [0x5A, 0x06, 0x03, framerate % 256, (framerate >>> 8) % 256,
              0x00]⟩, rdb⟩) := by
  have hF := frame_bytes body L h8 hbytes
  unfold setFrameRate
  simp only [CMD_FRAME_MARKER]
  rw [generateChecksum_eq _ 5 (by simp), bind_returns]
  simp only [List.set_cons_succ, List.set_nil]
  rw [write_eq _ _ 6 (by simp), bind_returns]
  simp only []
  rw [readCommandResponse_eq g body rest _ rdb commandResponse response L hg (by omega) h8
    hbody hresponse hfit, bind_returns]
  by_cases hok : (((0x5A :: L :: body).take (L - 1)).sum % 256
      == (0x5A :: L :: body).getD (L - 1) 0) = true
  · simp only [hok, if_true, Bool.true_and]
    rw [readInt16FromBuffer_eq _ 3 _ _
        (getElem?_frame_append body _ L 3 hbody (by omega) (by omega))
        (getElem?_frame_append body _ L 4 hbody (by omega) (by omega))
        (getD_lt_of_bytes _ hF 3) (getD_lt_of_bytes _ hF 4), bind_returns,
      readInt16FromBuffer_eq _ 3 (framerate % 256) ((framerate >>> 8) % 256) rfl rfl
        (Nat.mod_lt _ (by norm_num)) (Nat.mod_lt _ (by norm_num)), bind_returns]
    simp
  · rw [Bool.not_eq_true] at hok
    rw [hok]
    simp

theorem setMeasurementTo_eq (g body rest written rdb commandResponse response : List Nat)
    (L measurement : Nat) (hg : ∀ b ∈ g, b ≠ 0x5A) (h5 : 5 ≤ L) (h8 : L ≤ 8)
    (hfit : L ≤ commandResponse.length) (hbody : body.length = L - 2)
    (hresponse : response.length = 8) (hbytes : ∀ b ∈ body, b < 256) :
    setMeasurementTo ⟨⟨g ++ 0x5A :: L :: (body ++ rest), written⟩, rdb⟩ measurement
        commandResponse response
      = Outcome.returns
          ((((0x5A :: L :: body).take (L - 1)).sum % 256 == (0x5A :: L :: body).getD (L - 1) 0)
              && (256 * (0x5A :: L :: body).getD 3 0 + (0x5A :: L :: body).getD 4 0
                  == 256 * ((measurement >>> 8) % 256) + measurement % 256),
            ⟨⟨rest, written ++ [0x5A, 0x05, 0x05, (measurement >>> 8) % 256,
              measurement % 256]⟩, rdb⟩) := by
  have hF := frame_bytes body L h8 hbytes
  unfold setMeasurementTo
  simp only [CMD_FRAME_MARKER]
  rw [write_eq _ _ 5 (by simp), bind_returns]
  simp only []
  rw [readCommandResponse_eq g body rest _ rdb commandResponse response L hg (by omega) h8
    hbody hresponse hfit, bind_returns]
  by_cases hok : (((0x5A :: L :: body).take (L - 1)).sum % 256
      == (0x5A :: L :: body).getD (L - 1) 0) = true
  · simp only [hok, if_true, Bool.true_and]
    rw [readInt16FromBuffer_eq _ 3 _ _
        (getElem?_frame_append body _ L 3 hbody (by omega) (by omega))
        (getElem?_frame_append body _ L 4 hbody (by omega) (by omega))
        (getD_lt_of_bytes _ hF 3) (getD_lt_of_bytes _ hF 4), bind_returns,
      readInt16FromBuffer_eq _ 3 ((measurement >>> 8) % 256) (measurement % 256) rfl rfl
        (Nat.mod_lt _ (by norm_num)) (Nat.mod_lt _ (by norm_num)), bind_returns]
    simp
  · rw [Bool.not_eq_true] at hok
    rw [hok]
    simp

theorem setEnabled_eq (g body rest written rdb commandResponse response : List Nat)
    (L : Nat) (state : Bool) (hg : ∀ b ∈ g, b ≠ 0x5A) (h5 : 5 ≤ L) (h8 : L ≤ 8)
    (hfit : L ≤ commandResponse.length) (hbody : body.length = L - 2)
    (hresponse : response.length = 8) (hbytes : ∀ b ∈ body, b < 256) :
    setEnabled ⟨⟨g ++ 0x5A :: L :: (body ++ rest), written⟩, rdb⟩ state commandResponse response
      = Outcome.returns
          ((((0x5A :: L :: body).take (L - 1)).sum % 256 == (0x5A :: L :: body).getD (L - 1) 0)
              && (256 * (0x5A :: L :: body).getD 3 0 + (0x5A :: L :: body).getD 4 0
                  == 256 * (if state then 0x00 else 0x01) + (if state then 0x66 else 0x67)),
            ⟨⟨rest, written ++ [0x5A, 0x05, 0x07, if state then 0x00 else 0x01,
              if state then 0x66 else 0x67]⟩, rdb⟩) := by
  have hF := frame_bytes body L h8 hbytes
  unfold setEnabled
  simp only [CMD_FRAME_MARKER]
  have hreq : (if state = true then ([0x5A, 0x05, 0x07, 0x00, 0x00].set 3 0x00).set 4 0x66
      else ([0x5A, 0x05, 0x07, 0x00, 0x00].set 3 0x01).set 4 0x67)
      = [0x5A, 0x05, 0x07, if state then 0x00 else 0x01, if state then 0x66 else 0x67] := by
    cases state <;> rfl
  rw [hreq, write_eq _ _ 5 (by simp), bind_returns]
  simp only []
  rw [readCommandResponse_eq g body rest _ rdb commandResponse response L hg (by omega) h8
    hbody hresponse hfit, bind_returns]
  by_cases hok : (((0x5A :: L :: body).take (L - 1)).sum % 256
      == (0x5A :: L :: body).getD (L - 1) 0) = true
  · simp only [hok, if_true, Bool.true_and]
    rw [readInt16FromBuffer_eq _ 3 _ _
        (getElem?_frame_append body _ L 3 hbody (by omega) (by omega))
        (getElem?_frame_append body _ L 4 hbody (by omega) (by omega))
        (getD_lt_of_bytes _ hF 3) (getD_lt_of_bytes _ hF 4), bind_returns,
      readInt16FromBuffer_eq _ 3 (if state then 0x00 else 0x01) (if state then 0x66 else 0x67)
        rfl rfl (by cases state <;> decide) (by cases state <;> decide), bind_returns]
    simp
  · rw [Bool.not_eq_true] at hok
    rw [hok]
    simp

theorem setBaudRate_eq (g body rest written rdb commandResponse response : List Nat)
    (L baud : Nat) (hg : ∀ b ∈ g, b ≠ 0x5A) (h7 : 7 ≤ L) (h8 : L ≤ 8)
    (hfit : L ≤ commandResponse.length) (hbody : body.length = L - 2)
    (hresponse : response.length = 8) (hbytes : ∀ b ∈ body, b < 256) :
    setBaudRate ⟨⟨g ++ 0x5A :: L :: (body ++ rest), written⟩, rdb⟩ baud commandResponse response
      = Outcome.returns
          ((((0x5A :: L :: body).take (L - 1)).sum % 256 == (0x5A :: L :: body).getD (L - 1) 0)
              && (16777216 * (0x5A :: L :: body).getD 3 0 + 65536 * (0x5A :: L :: body).getD 4 0
                    + 256 * (0x5A :: L :: body).getD 5 0 + (0x5A :: L :: body).getD 6 0
                  == 16777216 * (baud % 256) + 65536 * ((baud >>> 8) % 256)
                    + 256 * ((baud >>> 16) % 256) + (baud >>> 24) % 256),
            ⟨⟨rest, written ++ [0x5A, 0x08, 0x06, baud % 256, (baud >>> 8) % 256,
              (baud >>> 16) % 256, (baud >>> 24) % 256,
              (0x5A + 0x08 + 0x06 + baud % 256 + (baud >>> 8) % 256 + (baud >>> 16) % 256
                + (baud >>> 24) % 256) % 256]⟩, rdb⟩) := by
  have hF := frame_bytes body L h8 hbytes
  unfold setBaudRate
  simp only [CMD_FRAME_MARKER]
  rw [generateChecksum_eq _ 7 (by simp), bind_returns]
  simp only [List.set_cons_succ, List.set_cons_zero]
  rw [write_eq _ _ 8 (by simp), bind_returns]
  simp only []
  rw [readCommandResponse_eq g body rest _ rdb commandResponse response L hg (by omega) h8
    hbody hresponse hfit, bind_returns]
  have hcs : (List.take 7 [0x5A, 0x08, 0x06, baud % 256, (baud >>> 8) % 256,
      (baud >>> 16) % 256, (baud >>> 24) % 256, 0x00]).sum % 256
      = (0x5A + 0x08 + 0x06 + baud % 256 + (baud >>> 8) % 256 + (baud >>> 16) % 256
          + (baud >>> 24) % 256) % 256 := by
    simp only [List.take_succ_cons, List.take_zero, List.sum_cons, List.sum_nil]
    congr 1
    ring
  rw [hcs]
  by_cases hok : (((0x5A :: L :: body).take (L - 1)).sum % 256
      == (0x5A :: L :: body).getD (L - 1) 0) = true
  · simp only [hok, if_true, Bool.true_and]
    rw [readInt32FromBuffer_eq _ 3 _ _ _ _
        (getElem?_frame_append body _ L 3 hbody (by omega) (by omega))
        (getElem?_frame_append body _ L 4 hbody (by omega) (by omega))
        (getElem?_frame_append body _ L 5 hbody (by omega) (by omega))
        (getElem?_frame_append body _ L 6 hbody (by omega) (by omega))
        (getD_lt_of_bytes _ hF 3) (getD_lt_of_bytes _ hF 4) (getD_lt_of_bytes _ hF 5)
        (getD_lt_of_bytes _ hF 6), bind_returns,
      readInt32FromBuffer_eq _ 3 (baud % 256) ((baud >>> 8) % 256) ((baud >>> 16) % 256)
        ((baud >>> 24) % 256) rfl rfl rfl rfl
        (Nat.mod_lt _ (by norm_num)) (Nat.mod_lt _ (by norm_num)) (Nat.mod_lt _ (by norm_num))
        (Nat.mod_lt _ (by norm_num)), bind_returns]
    simp
  · rw [Bool.not_eq_true] at hok
    rw [hok]
    simp

theorem getElem?_eq_some_getD (l : List Nat) (i : Nat) (h : i < l.length) :
    l[i]? = some (l.getD i 0) := by
  rw [List.getD_eq_getElem?_getD, List.getElem?_eq_getElem h, Option.getD_some]

theorem readInt16FromBuffer_inj (x y : List Nat) (hx : ∀ b ∈ x, b < 256)
    (hy : ∀ b ∈ y, b < 256) (hxl : 5 ≤ x.length) (hyl : 5 ≤ y.length) :
    readInt16FromBuffer x 3 = readInt16FromBuffer y 3 ↔
      x.getD 3 0 = y.getD 3 0 ∧ x.getD 4 0 = y.getD 4 0 := by
  have a3 := getD_lt_of_bytes x hx 3
  have a4 := getD_lt_of_bytes x hx 4
  have b3 := getD_lt_of_bytes y hy 3
  have b4 := getD_lt_of_bytes y hy 4
  rw [readInt16FromBuffer_eq x 3 _ _ (getElem?_eq_some_getD x 3 (by omega))
      (getElem?_eq_some_getD x 4 (by omega)) a3 a4,
    readInt16FromBuffer_eq y 3 _ _ (getElem?_eq_some_getD y 3 (by omega))
      (getElem?_eq_some_getD y 4 (by omega)) b3 b4]
  simp only [Outcome.returns.injEq]
  omega

theorem readInt32FromBuffer_inj (x y : List Nat) (hx : ∀ b ∈ x, b < 256)
    (hy : ∀ b ∈ y, b < 256) (hxl : 7 ≤ x.length) (hyl : 7 ≤ y.length) :
    readInt32FromBuffer x 3 = readInt32FromBuffer y 3 ↔
      x.getD 3 0 = y.getD 3 0 ∧ x.getD 4 0 = y.getD 4 0 ∧ x.getD 5 0 = y.getD 5 0 ∧
        x.getD 6 0 = y.getD 6 0 := by
  have a3 := getD_lt_of_bytes x hx 3
  have a4 := getD_lt_of_bytes x hx 4
  have a5 := getD_lt_of_bytes x hx 5
  have a6 := getD_lt_of_bytes x hx 6
  have b3 := getD_lt_of_bytes y hy 3
  have b4 := getD_lt_of_bytes y hy 4
  have b5 := getD_lt_of_bytes y hy 5
  have b6 := getD_lt_of_bytes y hy 6
  rw [readInt32FromBuffer_eq x 3 _ _ _ _ (getElem?_eq_some_getD x 3 (by omega))
      (getElem?_eq_some_getD x 4 (by omega)) (getElem?_eq_some_getD x 5 (by omega))
      (getElem?_eq_some_getD x 6 (by omega)) a3 a4 a5 a6,
    readInt32FromBuffer_eq y 3 _ _ _ _ (getElem?_eq_some_getD y 3 (by omega))
      (getElem?_eq_some_getD y 4 (by omega)) (getElem?_eq_some_getD y 5 (by omega))
      (getElem?_eq_some_getD y 6 (by omega)) b3 b4 b5 b6]
  simp only [Outcome.returns.injEq]
  omega

theorem shiftRight_8_mod (v : Nat) (hv : v < 65536) : (v >>> 8) % 256 = v / 256 := by
  rw [Nat.shiftRight_eq_div_pow]
  norm_num
  omega

theorem shiftRight_8_mod_div (v : Nat) : (v >>> 8) % 256 = v / 256 % 256 := by
  rw [Nat.shiftRight_eq_div_pow]

theorem shiftRight_16_mod_div (v : Nat) : (v >>> 16) % 256 = v / 65536 % 256 := by
  rw [Nat.shiftRight_eq_div_pow]

theorem shiftRight_24_mod (v : Nat) (hv : v < 4294967296) :
    (v >>> 24) % 256 = v / 16777216 := by
  rw [Nat.shiftRight_eq_div_pow]
  norm_num
  omega

/-- C9. With the transport holding `g ++ [0x5A, L] ++ body ++ rest`, where `g`
has no 0x5A and `body` has `L - 2` bytes, and `L` covering the payload and
fitting the response array of the operation, each of `setFrameRate`,
`setMeasurementTo`, `setEnabled` and `setBaudRate` returns, and it returns
true iff the frame `[0x5A, L] ++ body` passes `validateChecksum` and its bytes
from index 3 (two, or four for `setBaudRate`) equal the bytes at the same
indices of the request `req` the operation wrote. Comparing two byte arrays
through `readInt16FromBuffer` or `readInt32FromBuffer` at index 3 is the same
as comparing those bytes one by one. -/
theorem echo_commands_iff (g rest written rdb response : List Nat)
    (hg : ∀ b ∈ g, b ≠ 0x5A) (hresponse : response.length = 8) :
    (∀ (L framerate : Nat) (body commandResponse : List Nat), body.length = L - 2 →
      (∀ b ∈ body, b < 256) → framerate < 65536 → commandResponse.length = 6 → 5 ≤ L → L ≤ 6 →
      ∃ ok s req,
        setFrameRate ⟨⟨g ++ [0x5A, L] ++ body ++ rest, written⟩, rdb⟩ framerate commandResponse
            response = Outcome.returns (ok, s) ∧
        s._stream.written = written ++ req ∧
        req.getD 3 0 = framerate % 256 ∧ req.getD 4 0 = framerate / 256 ∧
        (ok = true ↔ validateChecksum ([0x5A, L] ++ body) L = Outcome.returns true ∧
          ([0x5A, L] ++ body).getD 3 0 = req.getD 3 0 ∧
          ([0x5A, L] ++ body).getD 4 0 = req.getD 4 0)) ∧
    (∀ (L measurement : Nat) (body commandResponse : List Nat), body.length = L - 2 →
      (∀ b ∈ body, b < 256) → measurement < 65536 → commandResponse.length = 5 → 5 ≤ L →
      L ≤ 5 →
      ∃ ok s req,
        setMeasurementTo ⟨⟨g ++ [0x5A, L] ++ body ++ rest, written⟩, rdb⟩ measurement
            commandResponse response = Outcome.returns (ok, s) ∧
        s._stream.written = written ++ req ∧
        req.getD 3 0 = measurement / 256 ∧ req.getD 4 0 = measurement % 256 ∧
        (ok = true ↔ validateChecksum ([0x5A, L] ++ body) L = Outcome.returns true ∧
          ([0x5A, L] ++ body).getD 3 0 = req.getD 3 0 ∧
          ([0x5A, L] ++ body).getD 4 0 = req.getD 4 0)) ∧
    (∀ (L : Nat) (state : Bool) (body commandResponse : List Nat), body.length = L - 2 →
      (∀ b ∈ body, b < 256) → commandResponse.length = 5 → 5 ≤ L → L ≤ 5 →
      ∃ ok s req,
        setEnabled ⟨⟨g ++ [0x5A, L] ++ body ++ rest, written⟩, rdb⟩ state commandResponse
            response = Outcome.returns (ok, s) ∧
        s._stream.written = written ++ req ∧
        req.getD 3 0 = (if state then 0x00 else 0x01) ∧
        req.getD 4 0 = (if state then 0x66 else 0x67) ∧
        (ok = true ↔ validateChecksum ([0x5A, L] ++ body) L = Outcome.returns true ∧
          ([0x5A, L] ++ body).getD 3 0 = req.getD 3 0 ∧
          ([0x5A, L] ++ body).getD 4 0 = req.getD 4 0)) ∧
    (∀ (L baud : Nat) (body commandResponse : List Nat), body.length = L - 2 →
      (∀ b ∈ body, b < 256) → baud < 4294967296 → commandResponse.length = 8 → 7 ≤ L → L ≤ 8 →
      ∃ ok s req,
        setBaudRate ⟨⟨g ++ [0x5A, L] ++ body ++ rest, written⟩, rdb⟩ baud commandResponse
            response = Outcome.returns (ok, s) ∧
        s._stream.written = written ++ req ∧
        req.getD 3 0 = baud % 256 ∧ req.getD 4 0 = baud / 256 % 256 ∧
        req.getD 5 0 = baud / 65536 % 256 ∧ req.getD 6 0 = baud / 16777216 ∧
        (ok = true ↔ validateChecksum ([0x5A, L] ++ body) L = Outcome.returns true ∧
          ([0x5A, L] ++ body).getD 3 0 = req.getD 3 0 ∧
          ([0x5A, L] ++ body).getD 4 0 = req.getD 4 0 ∧
          ([0x5A, L] ++ body).getD 5 0 = req.getD 5 0 ∧
          ([0x5A, L] ++ body).getD 6 0 = req.getD 6 0)) ∧
    (∀ x y : List Nat, (∀ b ∈ x, b < 256) → (∀ b ∈ y, b < 256) → 5 ≤ x.length →
      5 ≤ y.length →
      (readInt16FromBuffer x 3 = readInt16FromBuffer y 3 ↔
        x.getD 3 0 = y.getD 3 0 ∧ x.getD 4 0 = y.getD 4 0)) ∧
    (∀ x y : List Nat, (∀ b ∈ x, b < 256) → (∀ b ∈ y, b < 256) → 7 ≤ x.length →
      7 ≤ y.length →
      (readInt32FromBuffer x 3 = readInt32FromBuffer y 3 ↔
        x.getD 3 0 = y.getD 3 0 ∧ x.getD 4 0 = y.getD 4 0 ∧ x.getD 5 0 = y.getD 5 0 ∧
          x.getD 6 0 = y.getD 6 0)) := by
  have hin : ∀ (L : Nat) (body : List Nat),
      g ++ [0x5A, L] ++ body ++ rest = g ++ 0x5A :: L :: (body ++ rest) := by
    intro L body
    simp
  have hF : ∀ (L : Nat) (body : List Nat), [0x5A, L] ++ body = 0x5A :: L :: body :=
    fun _ _ => rfl
  refine ⟨?_, ?_, ?_, ?_, readInt16FromBuffer_inj, readInt32FromBuffer_inj⟩
  · intro L framerate body commandResponse hbody hbytes hv hlen h5 h6
    have hb := frame_bytes body L (by omega) hbytes
    have a3 := getD_lt_of_bytes _ hb 3
    have a4 := getD_lt_of_bytes _ hb 4
    have hhi := shiftRight_8_mod framerate hv
    rw [hin, hF]
    refine ⟨_, _, [0x5A, 0x06, 0x03, framerate % 256, (framerate >>> 8) % 256, 0x00],
      setFrameRate_eq g body rest written rdb commandResponse response L framerate hg h5
        (by omega) (by omega) hbody hresponse hbytes, rfl, rfl, hhi, ?_⟩
    rw [validateChecksum_frame_iff body L (by omega) (by omega) hbody]
    simp only [Bool.and_eq_true, beq_iff_eq, List.getD_cons_succ, List.getD_cons_zero] at a3 a4 ⊢
    have : (framerate >>> 8) % 256 < 256 := Nat.mod_lt _ (by norm_num)
    constructor
    · rintro ⟨h1, h2⟩
      exact ⟨h1, by omega, by omega⟩
    · rintro ⟨h1, h2, h3⟩
      exact ⟨h1, by omega⟩
  · intro L measurement body commandResponse hbody hbytes hv hlen h5 h6
    have hb := frame_bytes body L (by omega) hbytes
    have a3 := getD_lt_of_bytes _ hb 3
    have a4 := getD_lt_of_bytes _ hb 4
    have hhi := shiftRight_8_mod measurement hv
    rw [hin, hF]
    refine ⟨_, _, [0x5A, 0x05, 0x05, (measurement >>> 8) % 256, measurement % 256],
      setMeasurementTo_eq g body rest written rdb commandResponse response L measurement hg h5
        (by omega) (by omega) hbody hresponse hbytes, rfl, hhi, rfl, ?_⟩
    rw [validateChecksum_frame_iff body L (by omega) (by omega) hbody]
    simp only [Bool.and_eq_true, beq_iff_eq, List.getD_cons_succ, List.getD_cons_zero] at a3 a4 ⊢
    have : (measurement >>> 8) % 256 < 256 := Nat.mod_lt _ (by norm_num)
    constructor
    · rintro ⟨h1, h2⟩
      exact ⟨h1, by omega, by omega⟩
    · rintro ⟨h1, h2, h3⟩
      exact ⟨h1, by omega⟩
  · intro L state body commandResponse hbody hbytes hlen h5 h6
    have hb := frame_bytes body L (by omega) hbytes
    have a3 := getD_lt_of_bytes _ hb 3
    have a4 := getD_lt_of_bytes _ hb 4
    rw [hin, hF]
    refine ⟨_, _, [0x5A, 0x05, 0x07, if state then 0x00 else 0x01,
        if state then 0x66 else 0x67],
      setEnabled_eq g body rest written rdb commandResponse response L state hg h5
        (by omega) (by omega) hbody hresponse hbytes, rfl, rfl, rfl, ?_⟩
    rw [validateChecksum_frame_iff body L (by omega) (by omega) hbody]
    simp only [Bool.and_eq_true, beq_iff_eq, List.getD_cons_succ, List.getD_cons_zero] at a3 a4 ⊢
    cases state
    · simp only [Bool.false_eq_true, if_false]
      constructor
      · rintro ⟨h1, h2⟩
        exact ⟨h1, by omega, by omega⟩
      · rintro ⟨h1, h2, h3⟩
        exact ⟨h1, by omega⟩
    · simp only [if_true]
      constructor
      · rintro ⟨h1, h2⟩
        exact ⟨h1, by omega, by omega⟩
      · rintro ⟨h1, h2, h3⟩
        exact ⟨h1, by omega⟩
  · intro L baud body commandResponse hbody hbytes hv hlen h7 h8
    have hb := frame_bytes body L (by omega) hbytes
    have a3 := getD_lt_of_bytes _ hb 3
    have a4 := getD_lt_of_bytes _ hb 4
    have a5 := getD_lt_of_bytes _ hb 5
    have a6 := getD_lt_of_bytes _ hb 6
    rw [hin, hF]
    refine ⟨_, _, _,
      setBaudRate_eq g body rest written rdb commandResponse response L baud hg h7
        (by omega) (by omega) hbody hresponse hbytes, rfl, rfl, shiftRight_8_mod_div baud,
      shiftRight_16_mod_div baud, shiftRight_24_mod baud hv, ?_⟩
    rw [validateChecksum_frame_iff body L (by omega) (by omega) hbody]
    simp only [Bool.and_eq_true, beq_iff_eq, List.getD_cons_succ, List.getD_cons_zero]
      at a3 a4 a5 a6 ⊢
    have c1 : (baud >>> 8) % 256 < 256 := Nat.mod_lt _ (by norm_num)
    have c2 : (baud >>> 16) % 256 < 256 := Nat.mod_lt _ (by norm_num)
    have c3 : (baud >>> 24) % 256 < 256 := Nat.mod_lt _ (by norm_num)
    have c0 : baud % 256 < 256 := Nat.mod_lt _ (by norm_num)
    generalize (baud >>> 24) % 256 = x3 at c3 ⊢
    generalize (baud >>> 16) % 256 = x2 at c2 ⊢
    generalize (baud >>> 8) % 256 = x1 at c1 ⊢
    generalize baud % 256 = x0 at c0 ⊢
    clear hv
    constructor
    · rintro ⟨h1, h2⟩
      exact ⟨h1, by omega, by omega, by omega, by omega⟩
    · rintro ⟨h1, h2, h3, h4, h5⟩
      exact ⟨h1, by omega⟩

theorem echo_commands_iff_witness :
    (∃ ok s req,
        setFrameRate ⟨⟨[0x59] ++ [0x5A, 6] ++ [0x03, 0x64, 0x00, 0xC7] ++ [0x07], []⟩, []⟩ 100
            [1, 1, 1, 1, 1, 1] [3, 3, 3, 3, 3, 3, 3, 3] = Outcome.returns (ok, s) ∧
        s._stream.written = [] ++ req ∧
        req.getD 3 0 = 100 % 256 ∧ req.getD 4 0 = 100 / 256 ∧
        (ok = true ↔
          validateChecksum ([0x5A, 6] ++ [0x03, 0x64, 0x00, 0xC7]) 6 = Outcome.returns true ∧
          ([0x5A, 6] ++ [0x03, 0x64, 0x00, 0xC7]).getD 3 0 = req.getD 3 0 ∧
          ([0x5A, 6] ++ [0x03, 0x64, 0x00, 0xC7]).getD 4 0 = req.getD 4 0)) ∧
    (∃ ok s req,
        setMeasurementTo ⟨⟨[0x59] ++ [0x5A, 5] ++ [0x05, 0x01, 0x65] ++ [0x07], []⟩, []⟩ 357
            [1, 1, 1, 1, 1] [3, 3, 3, 3, 3, 3, 3, 3] = Outcome.returns (ok, s) ∧
        s._stream.written = [] ++ req ∧
        req.getD 3 0 = 357 / 256 ∧ req.getD 4 0 = 357 % 256 ∧
        (ok = true ↔
          validateChecksum ([0x5A, 5] ++ [0x05, 0x01, 0x65]) 5 = Outcome.returns true ∧
          ([0x5A, 5] ++ [0x05, 0x01, 0x65]).getD 3 0 = req.getD 3 0 ∧
          ([0x5A, 5] ++ [0x05, 0x01, 0x65]).getD 4 0 = req.getD 4 0)) ∧
    (∃ ok s req,
        setEnabled ⟨⟨[0x59] ++ [0x5A, 5] ++ [0x07, 0x01, 0x67] ++ [0x07], []⟩, []⟩ false
            [1, 1, 1, 1, 1] [3, 3, 3, 3, 3, 3, 3, 3] = Outcome.returns (ok, s) ∧
        s._stream.written = [] ++ req ∧
        req.getD 3 0 = (if false then 0x00 else 0x01) ∧
        req.getD 4 0 = (if false then 0x66 else 0x67) ∧
        (ok = true ↔
          validateChecksum ([0x5A, 5] ++ [0x07, 0x01, 0x67]) 5 = Outcome.returns true ∧
          ([0x5A, 5] ++ [0x07, 0x01, 0x67]).getD 3 0 = req.getD 3 0 ∧
          ([0x5A, 5] ++ [0x07, 0x01, 0x67]).getD 4 0 = req.getD 4 0)) ∧
    (∃ ok s req,
        setBaudRate
            ⟨⟨[0x59] ++ [0x5A, 8] ++ [0x06, 0x80, 0x25, 0x00, 0x00, 0x0D] ++ [0x07], []⟩, []⟩
            9600 [1, 1, 1, 1, 1, 1, 1, 1] [3, 3, 3, 3, 3, 3, 3, 3] = Outcome.returns (ok, s) ∧
        s._stream.written = [] ++ req ∧
        req.getD 3 0 = 9600 % 256 ∧ req.getD 4 0 = 9600 / 256 % 256 ∧
        req.getD 5 0 = 9600 / 65536 % 256 ∧ req.getD 6 0 = 9600 / 16777216 ∧
        (ok = true ↔
          validateChecksum ([0x5A, 8] ++ [0x06, 0x80, 0x25, 0x00, 0x00, 0x0D]) 8
            = Outcome.returns true ∧
          ([0x5A, 8] ++ [0x06, 0x80, 0x25, 0x00, 0x00, 0x0D]).getD 3 0 = req.getD 3 0 ∧
          ([0x5A, 8] ++ [0x06, 0x80, 0x25, 0x00, 0x00, 0x0D]).getD 4 0 = req.getD 4 0 ∧
          ([0x5A, 8] ++ [0x06, 0x80, 0x25, 0x00, 0x00, 0x0D]).getD 5 0 = req.getD 5 0 ∧
          ([0x5A, 8] ++ [0x06, 0x80, 0x25, 0x00, 0x00, 0x0D]).getD 6 0 = req.getD 6 0)) :=
  have h := echo_commands_iff [0x59] [0x07] [] [] [3, 3, 3, 3, 3, 3, 3, 3] (by decide)
    (by decide)
  ⟨h.1 6 100 [0x03, 0x64, 0x00, 0xC7] [1, 1, 1, 1, 1, 1] (by decide) (by decide) (by decide)
      (by decide) (by decide) (by decide),
    h.2.1 5 357 [0x05, 0x01, 0x65] [1, 1, 1, 1, 1] (by decide) (by decide) (by decide)
      (by decide) (by decide) (by decide),
    h.2.2.1 5 false [0x07, 0x01, 0x67] [1, 1, 1, 1, 1] (by decide) (by decide) (by decide)
      (by decide) (by decide),
    h.2.2.2.1 8 9600 [0x06, 0x80, 0x25, 0x00, 0x00, 0x0D] [1, 1, 1, 1, 1, 1, 1, 1] (by decide)
      (by decide) (by decide) (by decide) (by decide) (by decide)⟩

/-! ## Status commands -/

theorem systemReset_eq (g body rest written rdb commandResponse response : List Nat) (L : Nat)
    (hg : ∀ b ∈ g, b ≠ 0x5A) (h4 : 4 ≤ L) (h8 : L ≤ 8) (hfit : L ≤ commandResponse.length)
    (hbody : body.length = L - 2) (hresponse : response.length = 8) :
    systemReset ⟨⟨g ++ 0x5A :: L :: (body ++ rest), written⟩, rdb⟩ commandResponse response
      = Outcome.returns
          ((((0x5A :: L :: body).take (L - 1)).sum % 256 == (0x5A :: L :: body).getD (L - 1) 0)
              && ((0x5A :: L :: body).getD 3 0 == 0x00),
            ⟨⟨rest, written ++ [0x5A, 0x04, 0x02, 0x60]⟩, rdb⟩) := by
  unfold systemReset
  simp only [CMD_FRAME_MARKER]
  rw [write_eq _ _ 4 (by simp), bind_returns]
  simp only []
  rw [readCommandResponse_eq g body rest _ rdb commandResponse response L hg (by omega) h8
    hbody hresponse hfit, bind_returns]
  by_cases hok : (((0x5A :: L :: body).take (L - 1)).sum % 256
      == (0x5A :: L :: body).getD (L - 1) 0) = true
  · simp only [hok, if_true, Bool.true_and]
    rw [getElem?_frame_append body _ L 3 hbody (by omega) (by omega)]
    simp
  · rw [Bool.not_eq_true] at hok
    rw [hok]
    simp

theorem restoreFactorySettings_eq (g body rest written rdb commandResponse response : List Nat)
    (L : Nat) (hg : ∀ b ∈ g, b ≠ 0x5A) (h4 : 4 ≤ L) (h8 : L ≤ 8)
    (hfit : L ≤ commandResponse.length) (hbody : body.length = L - 2)
    (hresponse : response.length = 8) :
    restoreFactorySettings ⟨⟨g ++ 0x5A :: L :: (body ++ rest), written⟩, rdb⟩ commandResponse
        response
      = Outcome.returns
          ((((0x5A :: L :: body).take (L - 1)).sum % 256 == (0x5A :: L :: body).getD (L - 1) 0)
              && ((0x5A :: L :: body).getD 3 0 == 0x00),
            ⟨⟨rest, written ++ [0x5A, 0x04, 0x10, 0x6E]⟩, rdb⟩) := by
  unfold restoreFactorySettings
  simp only [CMD_FRAME_MARKER]
  rw [write_eq _ _ 4 (by simp), bind_returns]
  simp only []
  rw [readCommandResponse_eq g body rest _ rdb commandResponse response L hg (by omega) h8
    hbody hresponse hfit, bind_returns]
  by_cases hok : (((0x5A :: L :: body).take (L - 1)).sum % 256
      == (0x5A :: L :: body).getD (L - 1) 0) = true
  · simp only [hok, if_true, Bool.true_and]
    rw [getElem?_frame_append body _ L 3 hbody (by omega) (by omega)]
    simp
  · rw [Bool.not_eq_true] at hok
    rw [hok]
    simp

theorem saveSettings_eq (g body rest written rdb commandResponse response : List Nat)
    (L : Nat) (hg : ∀ b ∈ g, b ≠ 0x5A) (h4 : 4 ≤ L) (h8 : L ≤ 8)
    (hfit : L ≤ commandResponse.length) (hbody : body.length = L - 2)
    (hresponse : response.length = 8) :
    saveSettings ⟨⟨g ++ 0x5A :: L :: (body ++ rest), written⟩, rdb⟩ commandResponse response
      = Outcome.returns
          ((((0x5A :: L :: body).take (L - 1)).sum % 256 == (0x5A :: L :: body).getD (L - 1) 0)
              && ((0x5A :: L :: body).getD 3 0 == 0x00),
            ⟨⟨rest, written ++ [0x5A, 0x04, 0x11, 0x6F]⟩, rdb⟩) := by
  unfold saveSettings
  simp only [CMD_FRAME_MARKER]
  rw [write_eq _ _ 4 (by simp), bind_returns]
  simp only []
  rw [readCommandResponse_eq g body rest _ rdb commandResponse response L hg (by omega) h8
    hbody hresponse hfit, bind_returns]
  by_cases hok : (((0x5A :: L :: body).take (L - 1)).sum % 256
      == (0x5A :: L :: body).getD (L - 1) 0) = true
  · simp only [hok, if_true, Bool.true_and]
    rw [getElem?_frame_append body _ L 3 hbody (by omega) (by omega)]
    simp
  · rw [Bool.not_eq_true] at hok
    rw [hok]
    simp

/-- C10. With the transport holding `g ++ [0x5A, L] ++ body ++ rest`, where `g`
has no 0x5A, `body` has `L - 2` bytes and `4 ≤ L` fits the response array of
the operation (five bytes for `systemReset`, four for `restoreFactorySettings`
and `saveSettings`), each operation returns, and it returns true iff the frame
`[0x5A, L] ++ body` passes `validateChecksum` and its byte 3 is zero. -/
theorem status_commands_iff (g body rest written rdb response : List Nat) (L : Nat)
    (hg : ∀ b ∈ g, b ≠ 0x5A) (h4 : 4 ≤ L) (hbody : body.length = L - 2)
    (hresponse : response.length = 8) :
    (∀ commandResponse : List Nat, commandResponse.length = 5 → L ≤ 5 →
      ∃ ok s,
        systemReset ⟨⟨g ++ [0x5A, L] ++ body ++ rest, written⟩, rdb⟩ commandResponse response
          = Outcome.returns (ok, s) ∧
        (ok = true ↔ validateChecksum ([0x5A, L] ++ body) L = Outcome.returns true ∧
          ([0x5A, L] ++ body).getD 3 0 = 0x00)) ∧
    (∀ commandResponse : List Nat, commandResponse.length = 4 → L ≤ 4 →
      ∃ ok s,
        restoreFactorySettings ⟨⟨g ++ [0x5A, L] ++ body ++ rest, written⟩, rdb⟩ commandResponse
            response
          = Outcome.returns (ok, s) ∧
        (ok = true ↔ validateChecksum ([0x5A, L] ++ body) L = Outcome.returns true ∧
          ([0x5A, L] ++ body).getD 3 0 = 0x00)) ∧
    (∀ commandResponse : List Nat, commandResponse.length = 4 → L ≤ 4 →
      ∃ ok s,
        saveSettings ⟨⟨g ++ [0x5A, L] ++ body ++ rest, written⟩, rdb⟩ commandResponse response
          = Outcome.returns (ok, s) ∧
        (ok = true ↔ validateChecksum ([0x5A, L] ++ body) L = Outcome.returns true ∧
          ([0x5A, L] ++ body).getD 3 0 = 0x00)) := by
  have hin : g ++ [0x5A, L] ++ body ++ rest = g ++ 0x5A :: L :: (body ++ rest) := by simp
  have hF : [0x5A, L] ++ body = 0x5A :: L :: body := rfl
  rw [hin, hF]
  refine ⟨?_, ?_, ?_⟩
  · intro commandResponse hlen h5
    refine ⟨_, _, systemReset_eq g body rest written rdb commandResponse response L hg h4
      (by omega) (by omega) hbody hresponse, ?_⟩
    rw [validateChecksum_frame_iff body L (by omega) (by omega) hbody]
    simp
  · intro commandResponse hlen h5
    refine ⟨_, _, restoreFactorySettings_eq g body rest written rdb commandResponse response L
      hg h4 (by omega) (by omega) hbody hresponse, ?_⟩
    rw [validateChecksum_frame_iff body L (by omega) (by omega) hbody]
    simp
  · intro commandResponse hlen h5
    refine ⟨_, _, saveSettings_eq g body rest written rdb commandResponse response L hg h4
      (by omega) (by omega) hbody hresponse, ?_⟩
    rw [validateChecksum_frame_iff body L (by omega) (by omega) hbody]
    simp

theorem status_commands_iff_witness :
    (∃ ok s,
        systemReset ⟨⟨[0x59] ++ [0x5A, 4] ++ [0xA2, 0x00] ++ [0x07], []⟩, []⟩ [1, 1, 1, 1, 1]
            [3, 3, 3, 3, 3, 3, 3, 3]
          = Outcome.returns (ok, s) ∧
        (ok = true ↔ validateChecksum ([0x5A, 4] ++ [0xA2, 0x00]) 4 = Outcome.returns true ∧
          ([0x5A, 4] ++ [0xA2, 0x00]).getD 3 0 = 0x00)) ∧
    (∃ ok s,
        restoreFactorySettings ⟨⟨[0x59] ++ [0x5A, 4] ++ [0xA2, 0x00] ++ [0x07], []⟩, []⟩
            [1, 1, 1, 1] [3, 3, 3, 3, 3, 3, 3, 3]
          = Outcome.returns (ok, s) ∧
        (ok = true ↔ validateChecksum ([0x5A, 4] ++ [0xA2, 0x00]) 4 = Outcome.returns true ∧
          ([0x5A, 4] ++ [0xA2, 0x00]).getD 3 0 = 0x00)) ∧
    (∃ ok s,
        saveSettings ⟨⟨[0x59] ++ [0x5A, 4] ++ [0xA2, 0x00] ++ [0x07], []⟩, []⟩ [1, 1, 1, 1]
            [3, 3, 3, 3, 3, 3, 3, 3]
          = Outcome.returns (ok, s) ∧
        (ok = true ↔ validateChecksum ([0x5A, 4] ++ [0xA2, 0x00]) 4 = Outcome.returns true ∧
          ([0x5A, 4] ++ [0xA2, 0x00]).getD 3 0 = 0x00)) :=
  have h := status_commands_iff [0x59] [0xA2, 0x00] [0x07] [] [] [3, 3, 3, 3, 3, 3, 3, 3] 4
    (by decide) (by decide) (by decide) (by decide)
  ⟨h.1 [1, 1, 1, 1, 1] (by decide) (by decide), h.2.1 [1, 1, 1, 1] (by decide) (by decide),
    h.2.2 [1, 1, 1, 1] (by decide) (by decide)⟩

/-! ## Runs on arbitrary transport contents -/

theorem bind_eq_returns {α β : Type} {x : Outcome α} {f : α → Outcome β} {r : β}
    (h : x.bind f = Outcome.returns r) : ∃ a, x = Outcome.returns a ∧ f a = Outcome.returns r := by
  cases x with
  | returns a => exact ⟨a, rfl, h⟩
  | blocks => cases h
  | outOfBounds => cases h

theorem readBytes_eq (pending written buffer : List Nat) (n : Nat) (hn : n ≤ buffer.length) :
    Arduino.Stream.readBytes ⟨pending, written⟩ buffer n
      = Outcome.returns
          (pending.take n ++ buffer.drop (pending.take n).length,
            ⟨pending.drop n, written⟩) := by
  unfold Arduino.Stream.readBytes
  have hle : (List.take n pending).length ≤ buffer.length := by
    rw [List.length_take]
    omega
  simp only []
  rw [if_pos hle]

theorem readCommandResponse_eq_of_length (g tail written rdb buffer response F : List Nat)
    (L : Nat) (ok : Bool) (hg : ∀ b ∈ g, b ≠ 0x5A) (h2 : 2 ≤ L) (h8 : L ≤ 8)
    (hresponse : response.length = 8)
    (hF : F = 0x5A :: L
      :: (tail.take (L - 2) ++ response.drop (tail.take (L - 2)).length).take (L - 2))
    (hok : ok = ((F.take (L - 1)).sum % 256 == F.getD (L - 1) 0))
    (hbuffer : ok = true → L ≤ buffer.length) :
    readCommandResponse ⟨⟨g ++ 0x5A :: L :: tail, written⟩, rdb⟩ buffer response
      = Outcome.returns
          (ok, (if ok then F ++ buffer.drop L else buffer),
            ⟨⟨tail.drop (L - 2), written⟩, rdb⟩) := by
  subst hF
  subst hok
  have hgot : (tail.take (L - 2)).length ≤ L - 2 := by
    rw [List.length_take]
    omega
  generalize hr1 : tail.take (L - 2) ++ response.drop (tail.take (L - 2)).length = response1
    at hbuffer ⊢
  have hlen1 : response1.length = 8 := by
    rw [← hr1, List.length_append, List.length_drop]
    omega
  have hbody : (response1.take (L - 2)).length = L - 2 := by
    rw [List.length_take]
    omega
  generalize hb : response1.take (L - 2) = body at hbody hbuffer ⊢
  have hF : (0x5A :: L :: body).length = L := by simp [hbody]; omega
  unfold readCommandResponse
  simp only [CMD_FRAME_MARKER, MAX_CMD_RESPONSE_LENGTH]
  rw [skipToFrameHeader_eq 0x5A g (L :: tail) written _ (by norm_num) hg]
  rw [bind_returns]
  simp only [Arduino.Stream.readByte]
  rw [sizeOfDifference_eq L 2 h2 (by norm_num; omega),
    readBytes_eq tail written response (L - 2) (by omega), hr1]
  rw [bind_returns]
  rw [readCommandResponse_loop_eq response1 (L - 2) 2 _ (by norm_num) (by simp; omega)
    (by omega)]
  rw [bind_returns]
  have hframe : List.take 2 (0x5A :: L :: List.replicate (8 - 2) 0)
      ++ List.take (L - 2) (List.drop (2 - 2) response1)
      ++ List.drop (2 + (L - 2)) (0x5A :: L :: List.replicate (8 - 2) 0)
      = (0x5A :: L :: body) ++ List.replicate (8 - L) 0 := by
    have h22 : 2 + (L - 2) = (L - 2) + 2 := by omega
    simp only [List.take_succ_cons, List.take_zero, Nat.sub_self, List.drop_zero,
      hb, h22, List.drop_succ_cons, List.drop_replicate, List.cons_append,
      List.nil_append]
    congr 4
    omega
  rw [hframe, validateChecksum_eq _ L (by omega) (by omega) (by simp; omega)]
  rw [bind_returns]
  have htake : List.take (L - 1) ((0x5A :: L :: body) ++ List.replicate (8 - L) 0)
      = List.take (L - 1) (0x5A :: L :: body) :=
    List.take_append_of_le_length (by omega)
  have hget : ((0x5A :: L :: body) ++ List.replicate (8 - L) 0).getD (L - 1) 0
      = (0x5A :: L :: body).getD (L - 1) 0 :=
    List.getD_append _ _ _ _ (by omega)
  rw [htake, hget]
  by_cases hok : (((0x5A :: L :: body).take (L - 1)).sum % 256
      == (0x5A :: L :: body).getD (L - 1) 0) = true
  · have hcopy := copyBuffer_eq buffer ((0x5A :: L :: body) ++ List.replicate (8 - L) 0) L
      (hbuffer hok) (by simp; omega)
    rw [List.take_left' hF] at hcopy
    rw [hok, if_pos rfl, hcopy, bind_returns]
    simp
  · rw [Bool.not_eq_true] at hok
    rw [hok]
    simp

theorem readData_eq_bind (self : TFMiniPlus) (buffer : List Nat)
    (hrdb : self._readDataBuffer.length = 9) (hbuffer : buffer.length = 9) :
    readData self buffer
      = (skipToFrameHeader.loop 0x59 0x00 self._stream.pending).bind fun tail =>
          Outcome.returns
            ((((0x59 :: (tail.take 8 ++ buffer.drop (tail.take 8).length).take 8).take 8).sum
                  % 256
                == (0x59 :: (tail.take 8 ++ buffer.drop (tail.take 8).length).take 8).getD 8 0),
              ⟨⟨tail.drop 8, self._stream.written⟩,
                if (((0x59 :: (tail.take 8 ++ buffer.drop (tail.take 8).length).take 8).take
                      8).sum % 256
                    == (0x59 :: (tail.take 8
                      ++ buffer.drop (tail.take 8).length).take 8).getD 8 0) then
                  0x59 :: (tail.take 8 ++ buffer.drop (tail.take 8).length).take 8
                else List.replicate 9 0⟩) := by
  unfold readData
  simp only [DATA_FRAME_MARKER, DATA_FRAME_LENGTH]
  rw [resetBuffer_eq _ 9 hrdb, bind_returns]
  unfold skipToFrameHeader
  simp only []
  cases hl : skipToFrameHeader.loop 0x59 0x00 self._stream.pending with
  | blocks => rfl
  | outOfBounds => rfl
  | returns tail =>
    rw [bind_returns, bind_returns, bind_returns]
    simp only []
    have hgot : (tail.take 8).length ≤ 8 := by
      rw [List.length_take]
      omega
    rw [readBytes_eq tail _ buffer (9 - 1) (by omega), bind_returns]
    simp only [show (9 : Nat) - 1 = 8 from rfl]
    generalize hr1 : tail.take 8 ++ buffer.drop (tail.take 8).length = buffer1
    have hlen1 : buffer1.length = 9 := by
      rw [← hr1, List.length_append, List.length_drop]
      omega
    have hbody : (buffer1.take 8).length = 8 := by
      rw [List.length_take]
      omega
    generalize hb : buffer1.take 8 = body at hbody
    rw [readData_loop_eq buffer1 8 1 _ (by norm_num) (by simp) (by omega), bind_returns]
    have hframe : List.take 1 (0x59 :: List.replicate 8 0)
        ++ List.take 8 (List.drop (1 - 1) buffer1)
        ++ List.drop (1 + 8) (0x59 :: List.replicate 8 0) = 0x59 :: body := by
      simp [hb]
    rw [hframe, validateChecksum_eq _ 9 (by norm_num) (by norm_num) (by simp; omega),
      bind_returns]
    simp only [show (9 : Nat) - 1 = 8 from rfl]
    by_cases hok : (((0x59 :: body).take 8).sum % 256 == (0x59 :: body).getD 8 0) = true
    · have hcopy := copyBuffer_eq (List.replicate 9 0) (0x59 :: body) 9 (by simp)
        (by simp; omega)
      have hfull : List.take 9 (0x59 :: body) = 0x59 :: body :=
        List.take_of_length_le (by simp; omega)
      rw [hok, if_pos rfl, hcopy, bind_returns, hfull]
      simp
    · rw [Bool.not_eq_true] at hok
      rw [hok]
      simp

theorem skipToFrameHeader_written (self s : TFMiniPlus) (m : Nat)
    (h : skipToFrameHeader self m = Outcome.returns s) :
    s._stream.written = self._stream.written := by
  unfold skipToFrameHeader at h
  obtain ⟨rest, _, h⟩ := bind_eq_returns h
  injection h with h
  subst h
  rfl

theorem readByte_written (st : Arduino.Stream) (x : Nat) :
    (st.readByte x).2.written = st.written := by
  unfold Arduino.Stream.readByte
  cases st.pending <;> rfl

theorem readBytes_written (st st1 : Arduino.Stream) (buffer buffer1 : List Nat) (n : Nat)
    (h : st.readBytes buffer n = Outcome.returns (buffer1, st1)) :
    st1.written = st.written := by
  unfold Arduino.Stream.readBytes at h
  simp only [] at h
  split at h
  · injection h with h
    injection h with _ h
    subst h
    rfl
  · cases h

theorem readCommandResponse_written (self s : TFMiniPlus) (buffer response buffer1 : List Nat)
    (ok : Bool)
    (h : readCommandResponse self buffer response = Outcome.returns (ok, buffer1, s)) :
    s._stream.written = self._stream.written := by
  unfold readCommandResponse at h
  obtain ⟨s1, h1, h⟩ := bind_eq_returns h
  have hw1 := skipToFrameHeader_written self s1 _ h1
  have hw2 := readByte_written s1._stream 0x00
  simp only [] at h
  obtain ⟨⟨response1, stream3⟩, h2, h⟩ := bind_eq_returns h
  have hw3 := readBytes_written _ _ _ _ _ h2
  obtain ⟨frame, _, h⟩ := bind_eq_returns h
  obtain ⟨valid, _, h⟩ := bind_eq_returns h
  cases valid with
  | false =>
    simp only [Bool.false_eq_true, if_false] at h
    have hs := (Prod.mk.inj (Prod.mk.inj (Outcome.returns.inj h)).2).2
    rw [← hs]
    simp only []
    rw [hw3, hw2, hw1]
  | true =>
    simp only [if_true] at h
    obtain ⟨b, _, h⟩ := bind_eq_returns h
    have hs := (Prod.mk.inj (Prod.mk.inj (Outcome.returns.inj h)).2).2
    rw [← hs]
    simp only []
    rw [hw3, hw2, hw1]

/-! ## Bytes written by the operations -/

theorem getVersion_written (self s : TFMiniPlus) (commandResponse response : List Nat)
    (v : String) (h : getVersion self commandResponse response = Outcome.returns (v, s)) :
    s._stream.written = self._stream.written ++ [0x5A, 0x04, 0x01, 0x5F] := by
  unfold getVersion at h
  simp only [CMD_FRAME_MARKER] at h
  rw [write_eq _ _ 4 (by simp), bind_returns] at h
  obtain ⟨⟨ok, cr1, s2⟩, h1, h⟩ := bind_eq_returns h
  have hw := readCommandResponse_written _ _ _ _ _ _ h1
  simp only [] at hw h
  have hw2 : s2._stream.written = self._stream.written ++ [0x5A, 0x04, 0x01, 0x5F] := hw
  rw [← hw2]
  cases ok with
  | false =>
    simp only [Bool.not_false, if_true] at h
    rw [(Prod.mk.inj (Outcome.returns.inj h)).2]
  | true =>
    simp only [Bool.not_true, Bool.false_eq_true, if_false] at h
    split at h
    · rw [(Prod.mk.inj (Outcome.returns.inj h)).2]
    · cases h

theorem systemReset_written (self s : TFMiniPlus) (commandResponse response : List Nat)
    (out : Bool) (h : systemReset self commandResponse response = Outcome.returns (out, s)) :
    s._stream.written = self._stream.written ++ [0x5A, 0x04, 0x02, 0x60] := by
  unfold systemReset at h
  simp only [CMD_FRAME_MARKER] at h
  rw [write_eq _ _ 4 (by simp), bind_returns] at h
  obtain ⟨⟨ok, cr1, s2⟩, h1, h⟩ := bind_eq_returns h
  have hw := readCommandResponse_written _ _ _ _ _ _ h1
  simp only [] at hw h
  have hw2 : s2._stream.written = self._stream.written ++ [0x5A, 0x04, 0x02, 0x60] := hw
  rw [← hw2]
  cases ok with
  | false =>
    simp only [Bool.false_eq_true, if_false] at h
    rw [(Prod.mk.inj (Outcome.returns.inj h)).2]
  | true =>
    simp only [if_true] at h
    split at h
    · rw [(Prod.mk.inj (Outcome.returns.inj h)).2]
    · cases h

theorem restoreFactorySettings_written (self s : TFMiniPlus)
    (commandResponse response : List Nat) (out : Bool)
    (h : restoreFactorySettings self commandResponse response = Outcome.returns (out, s)) :
    s._stream.written = self._stream.written ++ [0x5A, 0x04, 0x10, 0x6E] := by
  unfold restoreFactorySettings at h
  simp only [CMD_FRAME_MARKER] at h
  rw [write_eq _ _ 4 (by simp), bind_returns] at h
  obtain ⟨⟨ok, cr1, s2⟩, h1, h⟩ := bind_eq_returns h
  have hw := readCommandResponse_written _ _ _ _ _ _ h1
  simp only [] at hw h
  have hw2 : s2._stream.written = self._stream.written ++ [0x5A, 0x04, 0x10, 0x6E] := hw
  rw [← hw2]
  cases ok with
  | false =>
    simp only [Bool.false_eq_true, if_false] at h
    rw [(Prod.mk.inj (Outcome.returns.inj h)).2]
  | true =>
    simp only [if_true] at h
    split at h
    · rw [(Prod.mk.inj (Outcome.returns.inj h)).2]
    · cases h

theorem saveSettings_written (self s : TFMiniPlus) (commandResponse response : List Nat)
    (out : Bool) (h : saveSettings self commandResponse response = Outcome.returns (out, s)) :
    s._stream.written = self._stream.written ++ [0x5A, 0x04, 0x11, 0x6F] := by
  unfold saveSettings at h
  simp only [CMD_FRAME_MARKER] at h
  rw [write_eq _ _ 4 (by simp), bind_returns] at h
  obtain ⟨⟨ok, cr1, s2⟩, h1, h⟩ := bind_eq_returns h
  have hw := readCommandResponse_written _ _ _ _ _ _ h1
  simp only [] at hw h
  have hw2 : s2._stream.written = self._stream.written ++ [0x5A, 0x04, 0x11, 0x6F] := hw
  rw [← hw2]
  cases ok with
  | false =>
    simp only [Bool.false_eq_true, if_false] at h
    rw [(Prod.mk.inj (Outcome.returns.inj h)).2]
  | true =>
    simp only [if_true] at h
    split at h
    · rw [(Prod.mk.inj (Outcome.returns.inj h)).2]
    · cases h

theorem setEnabled_written (self s : TFMiniPlus) (state : Bool)
    (commandResponse response : List Nat) (out : Bool)
    (h : setEnabled self state commandResponse response = Outcome.returns (out, s)) :
    s._stream.written
      = self._stream.written
        ++ (if state then [0x5A, 0x05, 0x07, 0x00, 0x66] else [0x5A, 0x05, 0x07, 0x01, 0x67]) := by
  unfold setEnabled at h
  simp only [CMD_FRAME_MARKER] at h
  have hreq : (if state = true then ([0x5A, 0x05, 0x07, 0x00, 0x00].set 3 0x00).set 4 0x66
      else ([0x5A, 0x05, 0x07, 0x00, 0x00].set 3 0x01).set 4 0x67)
      = (if state then [0x5A, 0x05, 0x07, 0x00, 0x66] else [0x5A, 0x05, 0x07, 0x01, 0x67]) := by
    cases state <;> rfl
  rw [hreq, write_eq _ _ 5 (by cases state <;> simp), bind_returns] at h
  obtain ⟨⟨ok, cr1, s2⟩, h1, h⟩ := bind_eq_returns h
  have hw := readCommandResponse_written _ _ _ _ _ _ h1
  simp only [] at hw h
  have hw2 : s2._stream.written = self._stream.written
      ++ (if state then [0x5A, 0x05, 0x07, 0x00, 0x66] else [0x5A, 0x05, 0x07, 0x01, 0x67]) := by
    rw [hw]
    cases state <;> rfl
  rw [← hw2]
  cases ok with
  | false =>
    simp only [Bool.false_eq_true, if_false] at h
    rw [(Prod.mk.inj (Outcome.returns.inj h)).2]
  | true =>
    simp only [if_true] at h
    obtain ⟨_, _, h⟩ := bind_eq_returns h
    obtain ⟨_, _, h⟩ := bind_eq_returns h
    rw [(Prod.mk.inj (Outcome.returns.inj h)).2]

theorem setMeasurementTo_written (self s : TFMiniPlus) (measurement : Nat)
    (commandResponse response : List Nat) (out : Bool)
    (h : setMeasurementTo self measurement commandResponse response
      = Outcome.returns (out, s)) :
    s._stream.written
      = self._stream.written
        ++ [0x5A, 0x05, 0x05, (measurement >>> 8) % 256, measurement % 256] := by
  unfold setMeasurementTo at h
  simp only [CMD_FRAME_MARKER] at h
  rw [write_eq _ _ 5 (by simp), bind_returns] at h
  obtain ⟨⟨ok, cr1, s2⟩, h1, h⟩ := bind_eq_returns h
  have hw := readCommandResponse_written _ _ _ _ _ _ h1
  simp only [] at hw h
  have hw2 : s2._stream.written = self._stream.written
      ++ [0x5A, 0x05, 0x05, (measurement >>> 8) % 256, measurement % 256] := hw
  rw [← hw2]
  cases ok with
  | false =>
    simp only [Bool.false_eq_true, if_false] at h
    rw [(Prod.mk.inj (Outcome.returns.inj h)).2]
  | true =>
    simp only [if_true] at h
    obtain ⟨_, _, h⟩ := bind_eq_returns h
    obtain ⟨_, _, h⟩ := bind_eq_returns h
    rw [(Prod.mk.inj (Outcome.returns.inj h)).2]

theorem setBaudRate_written (self s : TFMiniPlus) (baud : Nat)
    (commandResponse response : List Nat) (out : Bool)
    (h : setBaudRate self baud commandResponse response = Outcome.returns (out, s)) :
    s._stream.written
      = self._stream.written
        ++ [0x5A, 0x08, 0x06, baud % 256, (baud >>> 8) % 256, (baud >>> 16) % 256,
          (baud >>> 24) % 256,
          (0x5A + 0x08 + 0x06 + baud % 256 + (baud >>> 8) % 256 + (baud >>> 16) % 256
            + (baud >>> 24) % 256) % 256] := by
  unfold setBaudRate at h
  simp only [CMD_FRAME_MARKER] at h
  rw [generateChecksum_eq _ 7 (by simp), bind_returns] at h
  simp only [List.set_cons_succ, List.set_cons_zero] at h
  rw [write_eq _ _ 8 (by simp), bind_returns] at h
  have hcs : (List.take 7 [0x5A, 0x08, 0x06, baud % 256, (baud >>> 8) % 256,
      (baud >>> 16) % 256, (baud >>> 24) % 256, 0x00]).sum % 256
      = (0x5A + 0x08 + 0x06 + baud % 256 + (baud >>> 8) % 256 + (baud >>> 16) % 256
          + (baud >>> 24) % 256) % 256 := by
    simp only [List.take_succ_cons, List.take_zero, List.sum_cons, List.sum_nil]
    congr 1
    ring
  rw [hcs] at h
  obtain ⟨⟨ok, cr1, s2⟩, h1, h⟩ := bind_eq_returns h
  have hw := readCommandResponse_written _ _ _ _ _ _ h1
  simp only [] at hw h
  have hw2 : s2._stream.written = self._stream.written
      ++ [0x5A, 0x08, 0x06, baud % 256, (baud >>> 8) % 256, (baud >>> 16) % 256,
        (baud >>> 24) % 256,
        (0x5A + 0x08 + 0x06 + baud % 256 + (baud >>> 8) % 256 + (baud >>> 16) % 256
          + (baud >>> 24) % 256) % 256] := hw
  rw [← hw2]
  cases ok with
  | false =>
    simp only [Bool.false_eq_true, if_false] at h
    rw [(Prod.mk.inj (Outcome.returns.inj h)).2]
  | true =>
    simp only [if_true] at h
    obtain ⟨_, _, h⟩ := bind_eq_returns h
    obtain ⟨_, _, h⟩ := bind_eq_returns h
    rw [(Prod.mk.inj (Outcome.returns.inj h)).2]

theorem setFrameRate_written (self s : TFMiniPlus) (framerate : Nat)
    (commandResponse response : List Nat) (out : Bool)
    (h : setFrameRate self framerate commandResponse response = Outcome.returns (out, s)) :
    s._stream.written
      = self._stream.written
        ++ [0x5A, 0x06, 0x03, framerate % 256, (framerate >>> 8) % 256, 0x00] := by
  unfold setFrameRate at h
  simp only [CMD_FRAME_MARKER] at h
  rw [generateChecksum_eq _ 5 (by simp), bind_returns] at h
  simp only [List.set_cons_succ, List.set_nil] at h
  rw [write_eq _ _ 6 (by simp), bind_returns] at h
  obtain ⟨⟨ok, cr1, s2⟩, h1, h⟩ := bind_eq_returns h
  have hw := readCommandResponse_written _ _ _ _ _ _ h1
  simp only [] at hw h
  have hw2 : s2._stream.written = self._stream.written
      ++ [0x5A, 0x06, 0x03, framerate % 256, (framerate >>> 8) % 256, 0x00] := hw
  rw [← hw2]
  cases ok with
  | false =>
    simp only [Bool.false_eq_true, if_false] at h
    rw [(Prod.mk.inj (Outcome.returns.inj h)).2]
  | true =>
    simp only [if_true] at h
    obtain ⟨_, _, h⟩ := bind_eq_returns h
    obtain ⟨_, _, h⟩ := bind_eq_returns h
    rw [(Prod.mk.inj (Outcome.returns.inj h)).2]

theorem rebuilt_frame_length (tail response : List Nat) (L : Nat) (h2 : 2 ≤ L) (h8 : L ≤ 8)
    (hresponse : response.length = 8) :
    (0x5A :: L
      :: (tail.take (L - 2) ++ response.drop (tail.take (L - 2)).length).take (L - 2)).length
      = L := by
  have hgot : (tail.take (L - 2)).length ≤ L - 2 := by
    rw [List.length_take]
    omega
  simp only [List.length_cons, List.length_take, List.length_append, List.length_drop]
  omega

theorem copied_length (F cr : List Nat) (L : Nat) (hF : F.length = L) (hfit : L ≤ cr.length) :
    (F ++ cr.drop L).length = cr.length := by
  rw [List.length_append, List.length_drop, hF]
  omega

theorem systemReset_returns (g tail written rdb commandResponse response : List Nat) (L : Nat)
    (hg : ∀ b ∈ g, b ≠ 0x5A) (h2 : 2 ≤ L) (h8 : L ≤ 8) (hfit : L ≤ commandResponse.length)
    (hcr : 4 ≤ commandResponse.length) (hresponse : response.length = 8) :
    ∃ out s, systemReset ⟨⟨g ++ 0x5A :: L :: tail, written⟩, rdb⟩ commandResponse response
      = Outcome.returns (out, s) := by
  have hlen := rebuilt_frame_length tail response L h2 h8 hresponse
  unfold systemReset
  simp only [CMD_FRAME_MARKER]
  rw [write_eq _ _ 4 (by simp), bind_returns]
  simp only []
  rw [readCommandResponse_eq_of_length g tail _ rdb commandResponse response _ L _ hg h2 h8
    hresponse rfl rfl (fun _ => hfit), bind_returns]
  generalize (0x5A :: L
      :: (tail.take (L - 2) ++ response.drop (tail.take (L - 2)).length).take (L - 2)) = F
    at hlen ⊢
  generalize ((F.take (L - 1)).sum % 256 == F.getD (L - 1) 0) = ok
  cases ok with
  | false => exact ⟨_, _, rfl⟩
  | true =>
    have hc := copied_length F commandResponse L hlen hfit
    simp only [if_true]
    rw [List.getElem?_eq_getElem (by omega)]
    exact ⟨_, _, rfl⟩

theorem restoreFactorySettings_returns (g tail written rdb commandResponse response : List Nat)
    (L : Nat) (hg : ∀ b ∈ g, b ≠ 0x5A) (h2 : 2 ≤ L) (h8 : L ≤ 8)
    (hfit : L ≤ commandResponse.length) (hcr : 4 ≤ commandResponse.length)
    (hresponse : response.length = 8) :
    ∃ out s, restoreFactorySettings ⟨⟨g ++ 0x5A :: L :: tail, written⟩, rdb⟩ commandResponse
      response = Outcome.returns (out, s) := by
  have hlen := rebuilt_frame_length tail response L h2 h8 hresponse
  unfold restoreFactorySettings
  simp only [CMD_FRAME_MARKER]
  rw [write_eq _ _ 4 (by simp), bind_returns]
  simp only []
  rw [readCommandResponse_eq_of_length g tail _ rdb commandResponse response _ L _ hg h2 h8
    hresponse rfl rfl (fun _ => hfit), bind_returns]
  generalize (0x5A :: L
      :: (tail.take (L - 2) ++ response.drop (tail.take (L - 2)).length).take (L - 2)) = F
    at hlen ⊢
  generalize ((F.take (L - 1)).sum % 256 == F.getD (L - 1) 0) = ok
  cases ok with
  | false => exact ⟨_, _, rfl⟩
  | true =>
    have hc := copied_length F commandResponse L hlen hfit
    simp only [if_true]
    rw [List.getElem?_eq_getElem (by omega)]
    exact ⟨_, _, rfl⟩

theorem saveSettings_returns (g tail written rdb commandResponse response : List Nat)
    (L : Nat) (hg : ∀ b ∈ g, b ≠ 0x5A) (h2 : 2 ≤ L) (h8 : L ≤ 8)
    (hfit : L ≤ commandResponse.length) (hcr : 4 ≤ commandResponse.length)
    (hresponse : response.length = 8) :
    ∃ out s, saveSettings ⟨⟨g ++ 0x5A :: L :: tail, written⟩, rdb⟩ commandResponse response
      = Outcome.returns (out, s) := by
  have hlen := rebuilt_frame_length tail response L h2 h8 hresponse
  unfold saveSettings
  simp only [CMD_FRAME_MARKER]
  rw [write_eq _ _ 4 (by simp), bind_returns]
  simp only []
  rw [readCommandResponse_eq_of_length g tail _ rdb commandResponse response _ L _ hg h2 h8
    hresponse rfl rfl (fun _ => hfit), bind_returns]
  generalize (0x5A :: L
      :: (tail.take (L - 2) ++ response.drop (tail.take (L - 2)).length).take (L - 2)) = F
    at hlen ⊢
  generalize ((F.take (L - 1)).sum % 256 == F.getD (L - 1) 0) = ok
  cases ok with
  | false => exact ⟨_, _, rfl⟩
  | true =>
    have hc := copied_length F commandResponse L hlen hfit
    simp only [if_true]
    rw [List.getElem?_eq_getElem (by omega)]
    exact ⟨_, _, rfl⟩

theorem getVersion_returns (g tail written rdb commandResponse response : List Nat)
    (L : Nat) (hg : ∀ b ∈ g, b ≠ 0x5A) (h2 : 2 ≤ L) (h8 : L ≤ 8)
    (hfit : L ≤ commandResponse.length) (hcr : 6 ≤ commandResponse.length)
    (hresponse : response.length = 8) :
    ∃ v s, getVersion ⟨⟨g ++ 0x5A :: L :: tail, written⟩, rdb⟩ commandResponse response
      = Outcome.returns (v, s) := by
  have hlen := rebuilt_frame_length tail response L h2 h8 hresponse
  unfold getVersion
  simp only [CMD_FRAME_MARKER]
  rw [write_eq _ _ 4 (by simp), bind_returns]
  simp only []
  rw [readCommandResponse_eq_of_length g tail _ rdb commandResponse response _ L _ hg h2 h8
    hresponse rfl rfl (fun _ => hfit), bind_returns]
  generalize (0x5A :: L
      :: (tail.take (L - 2) ++ response.drop (tail.take (L - 2)).length).take (L - 2)) = F
    at hlen ⊢
  generalize ((F.take (L - 1)).sum % 256 == F.getD (L - 1) 0) = ok
  cases ok with
  | false => exact ⟨_, _, rfl⟩
  | true =>
    have hc := copied_length F commandResponse L hlen hfit
    simp only [Bool.not_true, Bool.false_eq_true, if_false, if_true]
    rw [List.getElem?_eq_getElem (by omega), List.getElem?_eq_getElem (by omega),
      List.getElem?_eq_getElem (by omega)]
    exact ⟨_, _, rfl⟩

theorem readInt16FromBuffer_returns (buffer : List Nat) (s : Nat) (h : s + 1 < buffer.length) :
    ∃ v, readInt16FromBuffer buffer s = Outcome.returns v := by
  unfold readInt16FromBuffer
  rw [List.getElem?_eq_getElem (by omega), List.getElem?_eq_getElem h]
  exact ⟨_, rfl⟩

theorem readInt32FromBuffer_returns (buffer : List Nat) (s : Nat) (h : s + 3 < buffer.length) :
    ∃ v, readInt32FromBuffer buffer s = Outcome.returns v := by
  unfold readInt32FromBuffer
  rw [List.getElem?_eq_getElem (by omega), List.getElem?_eq_getElem (by omega),
    List.getElem?_eq_getElem (by omega), List.getElem?_eq_getElem h]
  exact ⟨_, rfl⟩

theorem setEnabled_returns (g tail written rdb commandResponse response : List Nat)
    (L : Nat) (state : Bool) (hg : ∀ b ∈ g, b ≠ 0x5A) (h2 : 2 ≤ L) (h8 : L ≤ 8)
    (hfit : L ≤ commandResponse.length) (hcr : 5 ≤ commandResponse.length)
    (hresponse : response.length = 8) :
    ∃ out s, setEnabled ⟨⟨g ++ 0x5A :: L :: tail, written⟩, rdb⟩ state commandResponse response
      = Outcome.returns (out, s) := by
  have hlen := rebuilt_frame_length tail response L h2 h8 hresponse
  unfold setEnabled
  simp only [CMD_FRAME_MARKER]
  have hreq : (if state = true then ([0x5A, 0x05, 0x07, 0x00, 0x00].set 3 0x00).set 4 0x66
      else ([0x5A, 0x05, 0x07, 0x00, 0x00].set 3 0x01).set 4 0x67)
      = [0x5A, 0x05, 0x07, if state then 0x00 else 0x01, if state then 0x66 else 0x67] := by
    cases state <;> rfl
  rw [hreq, write_eq _ _ 5 (by simp), bind_returns]
  simp only []
  rw [readCommandResponse_eq_of_length g tail _ rdb commandResponse response _ L _ hg h2 h8
    hresponse rfl rfl (fun _ => hfit), bind_returns]
  generalize (0x5A :: L
      :: (tail.take (L - 2) ++ response.drop (tail.take (L - 2)).length).take (L - 2)) = F
    at hlen ⊢
  generalize ((F.take (L - 1)).sum % 256 == F.getD (L - 1) 0) = ok
  cases ok with
  | false => exact ⟨_, _, rfl⟩
  | true =>
    have hc := copied_length F commandResponse L hlen hfit
    simp only [if_true]
    obtain ⟨e, he⟩ := readInt16FromBuffer_returns (F ++ commandResponse.drop L) 3 (by omega)
    obtain ⟨t, ht⟩ := readInt16FromBuffer_returns
      [0x5A, 0x05, 0x07, if state then 0x00 else 0x01, if state then 0x66 else 0x67] 3
      (by simp)
    rw [he, bind_returns, ht, bind_returns]
    exact ⟨_, _, rfl⟩

theorem setMeasurementTo_returns (g tail written rdb commandResponse response : List Nat)
    (L measurement : Nat) (hg : ∀ b ∈ g, b ≠ 0x5A) (h2 : 2 ≤ L) (h8 : L ≤ 8)
    (hfit : L ≤ commandResponse.length) (hcr : 5 ≤ commandResponse.length)
    (hresponse : response.length = 8) :
    ∃ out s, setMeasurementTo ⟨⟨g ++ 0x5A :: L :: tail, written⟩, rdb⟩ measurement
      commandResponse response = Outcome.returns (out, s) := by
  have hlen := rebuilt_frame_length tail response L h2 h8 hresponse
  unfold setMeasurementTo
  simp only [CMD_FRAME_MARKER]
  rw [write_eq _ _ 5 (by simp), bind_returns]
  simp only []
  rw [readCommandResponse_eq_of_length g tail _ rdb commandResponse response _ L _ hg h2 h8
    hresponse rfl rfl (fun _ => hfit), bind_returns]
  generalize (0x5A :: L
      :: (tail.take (L - 2) ++ response.drop (tail.take (L - 2)).length).take (L - 2)) = F
    at hlen ⊢
  generalize ((F.take (L - 1)).sum % 256 == F.getD (L - 1) 0) = ok
  cases ok with
  | false => exact ⟨_, _, rfl⟩
  | true =>
    have hc := copied_length F commandResponse L hlen hfit
    simp only [if_true]
    obtain ⟨e, he⟩ := readInt16FromBuffer_returns (F ++ commandResponse.drop L) 3 (by omega)
    obtain ⟨t, ht⟩ := readInt16FromBuffer_returns
      [0x5A, 0x05, 0x05, (measurement >>> 8) % 256, measurement % 256] 3 (by simp)
    rw [he, bind_returns, ht, bind_returns]
    exact ⟨_, _, rfl⟩

theorem setBaudRate_returns (g tail written rdb commandResponse response : List Nat)
    (L baud : Nat) (hg : ∀ b ∈ g, b ≠ 0x5A) (h2 : 2 ≤ L) (h8 : L ≤ 8)
    (hfit : L ≤ commandResponse.length) (hcr : 7 ≤ commandResponse.length)
    (hresponse : response.length = 8) :
    ∃ out s, setBaudRate ⟨⟨g ++ 0x5A :: L :: tail, written⟩, rdb⟩ baud commandResponse response
      = Outcome.returns (out, s) := by
  have hlen := rebuilt_frame_length tail response L h2 h8 hresponse
  unfold setBaudRate
  simp only [CMD_FRAME_MARKER]
  rw [generateChecksum_eq _ 7 (by simp), bind_returns]
  simp only [List.set_cons_succ, List.set_cons_zero]
  rw [write_eq _ _ 8 (by simp), bind_returns]
  simp only []
  rw [readCommandResponse_eq_of_length g tail _ rdb commandResponse response _ L _ hg h2 h8
    hresponse rfl rfl (fun _ => hfit), bind_returns]
  generalize (0x5A :: L
      :: (tail.take (L - 2) ++ response.drop (tail.take (L - 2)).length).take (L - 2)) = F
    at hlen ⊢
  generalize ((F.take (L - 1)).sum % 256 == F.getD (L - 1) 0) = ok
  cases ok with
  | false => exact ⟨_, _, rfl⟩
  | true =>
    have hc := copied_length F commandResponse L hlen hfit
    simp only [if_true]
    obtain ⟨e, he⟩ := readInt32FromBuffer_returns (F ++ commandResponse.drop L) 3 (by omega)
    rw [he, bind_returns]
    generalize hreq : [0x5A, 0x08, 0x06, baud % 256, (baud >>> 8) % 256, (baud >>> 16) % 256,
      (baud >>> 24) % 256, _] = req
    obtain ⟨t, ht⟩ := readInt32FromBuffer_returns req 3 (by rw [← hreq]; simp)
    rw [ht, bind_returns]
    exact ⟨_, _, rfl⟩

/-! ## Encoding of the requests -/

/-- C11. The request frames of `getVersion`, `systemReset`, `triggerDetection`,
`setEnabled(true)`, `setEnabled(false)`, `restoreFactorySettings` and
`saveSettings`. Every run of one of them that returns has appended exactly its
frame to the bytes written; `triggerDetection` always returns, and the others
return whenever the transport holds `g ++ [0x5A, L] ++ tail` with no 0x5A in
`g` and `2 ≤ L ≤ 4`. Each frame starts with 0x5A, its second byte is the number
of bytes written, its third byte is the command code (0x01, 0x02, 0x04, 0x07,
0x07, 0x10, 0x11), its last byte is `generateChecksum` of the bytes before it,
and it passes `validateChecksum`. -/
theorem fixed_command_frames (g tail written rdb cr7 cr5 cr4 response : List Nat) (L : Nat)
    (hg : ∀ b ∈ g, b ≠ 0x5A) (h2 : 2 ≤ L) (h4 : L ≤ 4) (hcr7 : cr7.length = 7)
    (hcr5 : cr5.length = 5) (hcr4 : cr4.length = 4) (hresponse : response.length = 8) :
    ((∀ (self s : TFMiniPlus) (cr resp : List Nat) (v : String),
        getVersion self cr resp = Outcome.returns (v, s) →
        s._stream.written = self._stream.written ++ [0x5A, 0x04, 0x01, 0x5F]) ∧
      (∀ (self s : TFMiniPlus) (cr resp : List Nat) (out : Bool),
        systemReset self cr resp = Outcome.returns (out, s) →
        s._stream.written = self._stream.written ++ [0x5A, 0x04, 0x02, 0x60]) ∧
      (∀ self : TFMiniPlus,
        triggerDetection self
          = Outcome.returns
              ⟨⟨self._stream.pending, self._stream.written ++ [0x5A, 0x04, 0x04, 0x62]⟩,
                self._readDataBuffer⟩) ∧
      (∀ (self s : TFMiniPlus) (cr resp : List Nat) (out : Bool),
        setEnabled self true cr resp = Outcome.returns (out, s) →
        s._stream.written = self._stream.written ++ [0x5A, 0x05, 0x07, 0x00, 0x66]) ∧
      (∀ (self s : TFMiniPlus) (cr resp : List Nat) (out : Bool),
        setEnabled self false cr resp = Outcome.returns (out, s) →
        s._stream.written = self._stream.written ++ [0x5A, 0x05, 0x07, 0x01, 0x67]) ∧
      (∀ (self s : TFMiniPlus) (cr resp : List Nat) (out : Bool),
        restoreFactorySettings self cr resp = Outcome.returns (out, s) →
        s._stream.written = self._stream.written ++ [0x5A, 0x04, 0x10, 0x6E]) ∧
      (∀ (self s : TFMiniPlus) (cr resp : List Nat) (out : Bool),
        saveSettings self cr resp = Outcome.returns (out, s) →
        s._stream.written = self._stream.written ++ [0x5A, 0x04, 0x11, 0x6F])) ∧
    ((∃ v s, getVersion ⟨⟨g ++ [0x5A, L] ++ tail, written⟩, rdb⟩ cr7 response
        = Outcome.returns (v, s)) ∧
      (∃ out s, systemReset ⟨⟨g ++ [0x5A, L] ++ tail, written⟩, rdb⟩ cr5 response
        = Outcome.returns (out, s)) ∧
      (∃ out s, setEnabled ⟨⟨g ++ [0x5A, L] ++ tail, written⟩, rdb⟩ true cr5 response
        = Outcome.returns (out, s)) ∧
      (∃ out s, setEnabled ⟨⟨g ++ [0x5A, L] ++ tail, written⟩, rdb⟩ false cr5 response
        = Outcome.returns (out, s)) ∧
      (∃ out s, restoreFactorySettings ⟨⟨g ++ [0x5A, L] ++ tail, written⟩, rdb⟩ cr4 response
        = Outcome.returns (out, s)) ∧
      (∃ out s, saveSettings ⟨⟨g ++ [0x5A, L] ++ tail, written⟩, rdb⟩ cr4 response
        = Outcome.returns (out, s))) ∧
    (∀ fc ∈ [([0x5A, 0x04, 0x01, 0x5F], 0x01), ([0x5A, 0x04, 0x02, 0x60], 0x02),
        ([0x5A, 0x04, 0x04, 0x62], 0x04), ([0x5A, 0x05, 0x07, 0x00, 0x66], 0x07),
        ([0x5A, 0x05, 0x07, 0x01, 0x67], 0x07), ([0x5A, 0x04, 0x10, 0x6E], 0x10),
        ([0x5A, 0x04, 0x11, 0x6F], 0x11)],
      fc.1.getD 0 0 = 0x5A ∧ fc.1.getD 1 0 = fc.1.length ∧ fc.1.getD 2 0 = fc.2 ∧
        generateChecksum fc.1 (fc.1.length - 1)
          = Outcome.returns (fc.1.getD (fc.1.length - 1) 0) ∧
        validateChecksum fc.1 fc.1.length = Outcome.returns true) := by
  have hin : g ++ [0x5A, L] ++ tail = g ++ 0x5A :: L :: tail := by simp
  rw [hin]
  refine ⟨⟨?_, ?_, ?_, ?_, ?_, ?_, ?_⟩, ⟨?_, ?_, ?_, ?_, ?_, ?_⟩, by decide⟩
  · exact fun self s cr resp v h => getVersion_written self s cr resp v h
  · exact fun self s cr resp out h => systemReset_written self s cr resp out h
  · intro self
    unfold triggerDetection
    simp only [CMD_FRAME_MARKER]
    rw [write_eq _ _ 4 (by simp)]
    rfl
  · exact fun self s cr resp out h => setEnabled_written self s true cr resp out h
  · exact fun self s cr resp out h => setEnabled_written self s false cr resp out h
  · exact fun self s cr resp out h => restoreFactorySettings_written self s cr resp out h
  · exact fun self s cr resp out h => saveSettings_written self s cr resp out h
  · exact getVersion_returns g tail written rdb cr7 response L hg h2 (by omega) (by omega)
      (by omega) hresponse
  · exact systemReset_returns g tail written rdb cr5 response L hg h2 (by omega) (by omega)
      (by omega) hresponse
  · exact setEnabled_returns g tail written rdb cr5 response L true hg h2 (by omega)
      (by omega) (by omega) hresponse
  · exact setEnabled_returns g tail written rdb cr5 response L false hg h2 (by omega)
      (by omega) (by omega) hresponse
  · exact restoreFactorySettings_returns g tail written rdb cr4 response L hg h2 (by omega)
      (by omega) (by omega) hresponse
  · exact saveSettings_returns g tail written rdb cr4 response L hg h2 (by omega) (by omega)
      (by omega) hresponse

theorem fixed_command_frames_witness :
    (∃ v s, getVersion ⟨⟨[0x00] ++ [0x5A, 4] ++ [0x01, 0x5F, 0x07], []⟩, []⟩
        [1, 1, 1, 1, 1, 1, 1] [3, 3, 3, 3, 3, 3, 3, 3] = Outcome.returns (v, s) ∧
      s._stream.written = [] ++ [0x5A, 0x04, 0x01, 0x5F]) ∧
    (∃ out s, systemReset ⟨⟨[0x00] ++ [0x5A, 4] ++ [0x01, 0x5F, 0x07], []⟩, []⟩
        [1, 1, 1, 1, 1] [3, 3, 3, 3, 3, 3, 3, 3] = Outcome.returns (out, s) ∧
      s._stream.written = [] ++ [0x5A, 0x04, 0x02, 0x60]) ∧
    (∃ out s, setEnabled ⟨⟨[0x00] ++ [0x5A, 4] ++ [0x01, 0x5F, 0x07], []⟩, []⟩ true
        [1, 1, 1, 1, 1] [3, 3, 3, 3, 3, 3, 3, 3] = Outcome.returns (out, s) ∧
      s._stream.written = [] ++ [0x5A, 0x05, 0x07, 0x00, 0x66]) ∧
    (∃ out s, setEnabled ⟨⟨[0x00] ++ [0x5A, 4] ++ [0x01, 0x5F, 0x07], []⟩, []⟩ false
        [1, 1, 1, 1, 1] [3, 3, 3, 3, 3, 3, 3, 3] = Outcome.returns (out, s) ∧
      s._stream.written = [] ++ [0x5A, 0x05, 0x07, 0x01, 0x67]) ∧
    (∃ out s, restoreFactorySettings ⟨⟨[0x00] ++ [0x5A, 4] ++ [0x01, 0x5F, 0x07], []⟩, []⟩
        [1, 1, 1, 1] [3, 3, 3, 3, 3, 3, 3, 3] = Outcome.returns (out, s) ∧
      s._stream.written = [] ++ [0x5A, 0x04, 0x10, 0x6E]) ∧
    (∃ out s, saveSettings ⟨⟨[0x00] ++ [0x5A, 4] ++ [0x01, 0x5F, 0x07], []⟩, []⟩
        [1, 1, 1, 1] [3, 3, 3, 3, 3, 3, 3, 3] = Outcome.returns (out, s) ∧
      s._stream.written = [] ++ [0x5A, 0x04, 0x11, 0x6F]) := by
  have h := fixed_command_frames [0x00] [0x01, 0x5F, 0x07] [] [] [1, 1, 1, 1, 1, 1, 1]
    [1, 1, 1, 1, 1] [1, 1, 1, 1] [3, 3, 3, 3, 3, 3, 3, 3] 4 (by decide) (by decide) (by decide)
    (by decide) (by decide) (by decide) (by decide)
  obtain ⟨⟨w1, w2, _, w4, w5, w6, w7⟩, ⟨r1, r2, r4, r5, r6, r7⟩, _⟩ := h
  refine ⟨?_, ?_, ?_, ?_, ?_, ?_⟩
  · obtain ⟨v, s, hv⟩ := r1
    exact ⟨v, s, hv, w1 _ _ _ _ _ hv⟩
  · obtain ⟨v, s, hv⟩ := r2
    exact ⟨v, s, hv, w2 _ _ _ _ _ hv⟩
  · obtain ⟨v, s, hv⟩ := r4
    exact ⟨v, s, hv, w4 _ _ _ _ _ hv⟩
  · obtain ⟨v, s, hv⟩ := r5
    exact ⟨v, s, hv, w5 _ _ _ _ _ hv⟩
  · obtain ⟨v, s, hv⟩ := r6
    exact ⟨v, s, hv, w6 _ _ _ _ _ hv⟩
  · obtain ⟨v, s, hv⟩ := r7
    exact ⟨v, s, hv, w7 _ _ _ _ _ hv⟩

/-- C12 fails on the code. Every run of `setFrameRate` that returns has written
`[0x5A, 0x06, 0x03, rate mod 256, rate div 256 mod 256, 0x00]`: the checksum is
stored at `buffer[6]`, behind the six-byte array, and the sixth byte sent is
the zero of the initialiser. For the rate 100 the checksum of the first five
bytes is 0xC7, and the frame written does not pass `validateChecksum`. -/
theorem setFrameRate_writes_zero_checksum :
    (∀ (self s : TFMiniPlus) (framerate : Nat) (cr resp : List Nat) (out : Bool),
      setFrameRate self framerate cr resp = Outcome.returns (out, s) →
      s._stream.written
        = self._stream.written
          ++ [0x5A, 0x06, 0x03, framerate % 256, (framerate >>> 8) % 256, 0x00]) ∧
    setFrameRate ⟨⟨[0x5A, 0x06, 0x03, 0x64, 0x00, 0xC7], []⟩, []⟩ 100 [1, 1, 1, 1, 1, 1]
        [3, 3, 3, 3, 3, 3, 3, 3]
      = Outcome.returns (true, ⟨⟨[], [0x5A, 0x06, 0x03, 0x64, 0x00, 0x00]⟩, []⟩) ∧
    generateChecksum [0x5A, 0x06, 0x03, 0x64, 0x00] 5 = Outcome.returns 0xC7 ∧
    validateChecksum [0x5A, 0x06, 0x03, 0x64, 0x00, 0x00] 6 = Outcome.returns false := by
  refine ⟨?_, by decide, by decide, by decide⟩
  exact fun self s framerate cr resp out h =>
    setFrameRate_written self s framerate cr resp out h

/-- C13. For a 32-bit `baud` with bytes `b0 = baud mod 256`, `b1`, `b2`, `b3`
(least significant first), every run of `setBaudRate` that returns has
appended exactly the eight bytes `[0x5A, 0x08, 0x06, b0, b1, b2, b3, cs]` to
the bytes written, where `cs` is `generateChecksum` of the first seven, the sum
of these modulo 256; the frame passes `validateChecksum`. The call returns
whenever the transport holds `g ++ [0x5A, L] ++ tail` with no 0x5A in `g` and
`2 ≤ L ≤ 8`. -/
theorem setBaudRate_frame (g tail written rdb commandResponse response : List Nat)
    (L baud : Nat) (hbaud : baud < 4294967296) (hg : ∀ b ∈ g, b ≠ 0x5A) (h2 : 2 ≤ L)
    (h8 : L ≤ 8) (hcr : commandResponse.length = 8) (hresponse : response.length = 8) :
    ∃ cs,
      generateChecksum
          [0x5A, 0x08, 0x06, baud % 256, baud / 256 % 256, baud / 65536 % 256,
            baud / 16777216] 7 = Outcome.returns cs ∧
      cs = (0x5A + 0x08 + 0x06 + baud % 256 + baud / 256 % 256 + baud / 65536 % 256
        + baud / 16777216) % 256 ∧
      baud = baud % 256 + 256 * (baud / 256 % 256) + 65536 * (baud / 65536 % 256)
        + 16777216 * (baud / 16777216) ∧
      [0x5A, 0x08, 0x06, baud % 256, baud / 256 % 256, baud / 65536 % 256, baud / 16777216,
        cs].length = 3 + 4 + 1 ∧
      validateChecksum
          [0x5A, 0x08, 0x06, baud % 256, baud / 256 % 256, baud / 65536 % 256,
            baud / 16777216, cs] 8 = Outcome.returns true ∧
      (∀ (self s : TFMiniPlus) (cr resp : List Nat) (out : Bool),
        setBaudRate self baud cr resp = Outcome.returns (out, s) →
        s._stream.written
          = self._stream.written
            ++ [0x5A, 0x08, 0x06, baud % 256, baud / 256 % 256, baud / 65536 % 256,
              baud / 16777216, cs]) ∧
      (∃ out s, setBaudRate ⟨⟨g ++ [0x5A, L] ++ tail, written⟩, rdb⟩ baud commandResponse
        response = Outcome.returns (out, s)) := by
  have hin : g ++ [0x5A, L] ++ tail = g ++ 0x5A :: L :: tail := by simp
  have e1 := shiftRight_8_mod_div baud
  have e2 := shiftRight_16_mod_div baud
  have e3 := shiftRight_24_mod baud hbaud
  rw [hin]
  refine ⟨(0x5A + 0x08 + 0x06 + baud % 256 + baud / 256 % 256 + baud / 65536 % 256
    + baud / 16777216) % 256, ?_, rfl, by omega, rfl, ?_, ?_, ?_⟩
  · rw [generateChecksum_eq _ 7 (by simp)]
    simp only [List.take_succ_cons, List.take_zero, List.sum_cons, List.sum_nil]
    congr 2
    ring
  · rw [validateChecksum_eq _ 8 (by norm_num) (by norm_num) (by simp)]
    simp only [List.take_succ_cons, List.take_zero, List.sum_cons, List.sum_nil]
    simp
    ring_nf
  · intro self s cr resp out h
    have hw := setBaudRate_written self s baud cr resp out h
    rw [e1, e2, e3] at hw
    exact hw
  · exact setBaudRate_returns g tail written rdb commandResponse response L baud hg h2 h8
      (by omega) (by omega) hresponse

theorem setBaudRate_frame_witness :
    ∃ cs,
      generateChecksum
          [0x5A, 0x08, 0x06, 9600 % 256, 9600 / 256 % 256, 9600 / 65536 % 256,
            9600 / 16777216] 7 = Outcome.returns cs ∧
      cs = (0x5A + 0x08 + 0x06 + 9600 % 256 + 9600 / 256 % 256 + 9600 / 65536 % 256
        + 9600 / 16777216) % 256 ∧
      9600 = 9600 % 256 + 256 * (9600 / 256 % 256) + 65536 * (9600 / 65536 % 256)
        + 16777216 * (9600 / 16777216) ∧
      [0x5A, 0x08, 0x06, 9600 % 256, 9600 / 256 % 256, 9600 / 65536 % 256, 9600 / 16777216,
        cs].length = 3 + 4 + 1 ∧
      validateChecksum
          [0x5A, 0x08, 0x06, 9600 % 256, 9600 / 256 % 256, 9600 / 65536 % 256,
            9600 / 16777216, cs] 8 = Outcome.returns true ∧
      (∀ (self s : TFMiniPlus) (cr resp : List Nat) (out : Bool),
        setBaudRate self 9600 cr resp = Outcome.returns (out, s) →
        s._stream.written
          = self._stream.written
            ++ [0x5A, 0x08, 0x06, 9600 % 256, 9600 / 256 % 256, 9600 / 65536 % 256,
              9600 / 16777216, cs]) ∧
      (∃ out s, setBaudRate ⟨⟨[0x00] ++ [0x5A, 8] ++ [0x06, 0x80, 0x25], []⟩, []⟩ 9600
        [1, 1, 1, 1, 1, 1, 1, 1] [3, 3, 3, 3, 3, 3, 3, 3] = Outcome.returns (out, s)) :=
  setBaudRate_frame [0x00] [0x06, 0x80, 0x25] [] [] [1, 1, 1, 1, 1, 1, 1, 1]
    [3, 3, 3, 3, 3, 3, 3, 3] 8 9600 (by decide) (by decide) (by decide) (by decide) (by decide)
    (by decide)

/-- C14, as the claim states it, fails: for `m = 1` the frame written by
`setMeasurementTo` is `5A 05 05 00 01`; its payload has the most significant
byte of `m` first, its last byte is not the checksum 0x64 of the bytes before
it, and it does not pass `validateChecksum`. -/
theorem setMeasurementTo_frame_not_little_endian_with_checksum :
    ∃ s, setMeasurementTo ⟨⟨[0x5A, 0x05, 0x05, 0x00, 0x64], []⟩, []⟩ 1 [1, 1, 1, 1, 1]
          [3, 3, 3, 3, 3, 3, 3, 3] = Outcome.returns (false, s) ∧
      s._stream.written = [0x5A, 0x05, 0x05, 0x00, 0x01] ∧
      s._stream.written.getD 3 0 ≠ 1 % 256 ∧
      generateChecksum s._stream.written 4 = Outcome.returns 0x64 ∧
      s._stream.written.getD 4 0 ≠ 0x64 ∧
      validateChecksum s._stream.written 5 = Outcome.returns false := by
  refine ⟨⟨⟨[], [0x5A, 0x05, 0x05, 0x00, 0x01]⟩, []⟩, by decide, by decide, by decide,
    by decide, by decide, by decide⟩

/-- C14, amended. For a 16-bit `m`, every run of `setMeasurementTo` that
returns has appended exactly the five bytes
`[0x5A, 0x05, 0x05, m div 256, m mod 256]` to the bytes written: marker 0x5A, a
length byte equal to the number of bytes written, command code 0x05, then `m`
with its most significant byte first. No checksum is computed: the last byte
is `m mod 256`, and the frame passes `validateChecksum` iff
`m mod 256 = (0x64 + m div 256) mod 256`. The call returns whenever the
transport holds `g ++ [0x5A, L] ++ tail` with no 0x5A in `g` and `2 ≤ L ≤ 5`. -/
theorem setMeasurementTo_frame (g tail written rdb commandResponse response : List Nat)
    (L m : Nat) (hm : m < 65536) (hg : ∀ b ∈ g, b ≠ 0x5A) (h2 : 2 ≤ L) (h5 : L ≤ 5)
    (hcr : commandResponse.length = 5) (hresponse : response.length = 8) :
    (∀ (self s : TFMiniPlus) (cr resp : List Nat) (out : Bool),
      setMeasurementTo self m cr resp = Outcome.returns (out, s) →
      s._stream.written = self._stream.written ++ [0x5A, 0x05, 0x05, m / 256, m % 256]) ∧
    [0x5A, 0x05, 0x05, m / 256, m % 256].getD 1 0
      = [0x5A, 0x05, 0x05, m / 256, m % 256].length ∧
    m = 256 * (m / 256) + m % 256 ∧
    (validateChecksum [0x5A, 0x05, 0x05, m / 256, m % 256] 5 = Outcome.returns true ↔
      m % 256 = (0x64 + m / 256) % 256) ∧
    (∃ out s, setMeasurementTo ⟨⟨g ++ [0x5A, L] ++ tail, written⟩, rdb⟩ m commandResponse
      response = Outcome.returns (out, s)) := by
  have hin : g ++ [0x5A, L] ++ tail = g ++ 0x5A :: L :: tail := by simp
  have e1 := shiftRight_8_mod m hm
  rw [hin]
  refine ⟨?_, rfl, by omega, ?_, ?_⟩
  · intro self s cr resp out h
    have hw := setMeasurementTo_written self s m cr resp out h
    rw [e1] at hw
    exact hw
  · rw [validateChecksum_eq _ 5 (by norm_num) (by norm_num) (by simp)]
    simp only [List.take_succ_cons, List.take_zero, List.sum_cons, List.sum_nil]
    simp
    constructor <;> intro h <;> omega
  · exact setMeasurementTo_returns g tail written rdb commandResponse response L m hg h2
      (by omega) (by omega) (by omega) hresponse

theorem setMeasurementTo_frame_witness :
    (∀ (self s : TFMiniPlus) (cr resp : List Nat) (out : Bool),
      setMeasurementTo self 357 cr resp = Outcome.returns (out, s) →
      s._stream.written = self._stream.written ++ [0x5A, 0x05, 0x05, 357 / 256, 357 % 256]) ∧
    [0x5A, 0x05, 0x05, 357 / 256, 357 % 256].getD 1 0
      = [0x5A, 0x05, 0x05, 357 / 256, 357 % 256].length ∧
    357 = 256 * (357 / 256) + 357 % 256 ∧
    (validateChecksum [0x5A, 0x05, 0x05, 357 / 256, 357 % 256] 5 = Outcome.returns true ↔
      357 % 256 = (0x64 + 357 / 256) % 256) ∧
    (∃ out s, setMeasurementTo ⟨⟨[0x00] ++ [0x5A, 5] ++ [0x05, 0x01, 0x65], []⟩, []⟩ 357
      [1, 1, 1, 1, 1] [3, 3, 3, 3, 3, 3, 3, 3] = Outcome.returns (out, s)) :=
  setMeasurementTo_frame [0x00] [0x05, 0x01, 0x65] [] [] [1, 1, 1, 1, 1]
    [3, 3, 3, 3, 3, 3, 3, 3] 5 357 (by decide) (by decide) (by decide) (by decide) (by decide)
    (by decide)

/-! ## The last-frame buffer -/

theorem readData_returns_cases (self s : TFMiniPlus) (buffer : List Nat) (ok : Bool)
    (hrdb : self._readDataBuffer.length = 9) (hbuffer : buffer.length = 9)
    (h : readData self buffer = Outcome.returns (ok, s)) :
    (ok = false ∧ s._readDataBuffer = List.replicate 9 0) ∨
      (ok = true ∧ s._readDataBuffer.length = 9 ∧ s._readDataBuffer.getD 0 0 = 0x59 ∧
        validateChecksum s._readDataBuffer 9 = Outcome.returns true) := by
  rw [readData_eq_bind self buffer hrdb hbuffer] at h
  obtain ⟨tail, _, h⟩ := bind_eq_returns h
  have hgot : (tail.take 8).length ≤ 8 := by
    rw [List.length_take]
    omega
  have hlen : ((tail.take 8 ++ buffer.drop (tail.take 8).length).take 8).length = 8 := by
    rw [List.length_take, List.length_append, List.length_drop]
    omega
  generalize (tail.take 8 ++ buffer.drop (tail.take 8).length).take 8 = body at h hlen
  have hok := (Prod.mk.inj (Outcome.returns.inj h)).1
  have hs := (Prod.mk.inj (Outcome.returns.inj h)).2
  rw [hok] at hs
  rw [← hs]
  cases ok with
  | false =>
    left
    exact ⟨rfl, rfl⟩
  | true =>
    right
    refine ⟨rfl, ?_, rfl, ?_⟩
    · simp [hlen]
    · simp only [if_true]
      rw [validateChecksum_eq _ 9 (by norm_num) (by norm_num) (by simp; omega)]
      exact congrArg Outcome.returns hok

theorem getters_of_zero_buffer (stream : Arduino.Stream) :
    getDistance ⟨stream, List.replicate 9 0⟩ = 0 ∧
      getSignalStrength ⟨stream, List.replicate 9 0⟩ = 0 ∧
      getSensorRawTempreture ⟨stream, List.replicate 9 0⟩ = 0 := by
  refine ⟨?_, ?_, ?_⟩ <;> simp [getDistance, getSignalStrength, getSensorRawTempreture]

/-- C19. After a `readData` call that returns, with `_readDataBuffer` and the
local array nine bytes long, the last-frame buffer is all zeros exactly when
the call returned false, and a nine-byte frame that starts with 0x59 and
passes `validateChecksum` exactly when it returned true; after a call that
returned false the three getters give 0. -/
theorem readData_last_frame_invariant (self s : TFMiniPlus) (buffer : List Nat) (ok : Bool)
    (hrdb : self._readDataBuffer.length = 9) (hbuffer : buffer.length = 9)
    (h : readData self buffer = Outcome.returns (ok, s)) :
    (ok = false ↔ s._readDataBuffer = List.replicate 9 0) ∧
    (ok = true ↔ (s._readDataBuffer.length = 9 ∧ s._readDataBuffer.getD 0 0 = 0x59 ∧
        validateChecksum s._readDataBuffer 9 = Outcome.returns true)) ∧
    (ok = false → getDistance s = 0 ∧ getSignalStrength s = 0 ∧
        getSensorRawTempreture s = 0) := by
  rcases readData_returns_cases self s buffer ok hrdb hbuffer h with ⟨h1, h2⟩ | ⟨h1, h2, h3, h4⟩
  · subst h1
    refine ⟨⟨fun _ => h2, fun _ => rfl⟩, ⟨(fun hc => by cases hc), ?_⟩, ?_⟩
    · rintro ⟨_, hc, _⟩
      rw [h2] at hc
      simp at hc
    · intro _
      have hz := getters_of_zero_buffer s._stream
      rw [← h2] at hz
      exact hz
  · subst h1
    refine ⟨⟨(fun hc => by cases hc), ?_⟩, ⟨fun _ => ⟨h2, h3, h4⟩, fun _ => rfl⟩,
      (fun hc => by cases hc)⟩
    intro hc
    rw [hc] at h3
    simp at h3

theorem readData_last_frame_invariant_witness :
    (false = false ↔
        (⟨⟨[0x07], []⟩, [0, 0, 0, 0, 0, 0, 0, 0, 0]⟩ : TFMiniPlus)._readDataBuffer
          = List.replicate 9 0) ∧
    (false = true ↔
        ((⟨⟨[0x07], []⟩, [0, 0, 0, 0, 0, 0, 0, 0, 0]⟩ : TFMiniPlus)._readDataBuffer.length = 9 ∧
          (⟨⟨[0x07], []⟩, [0, 0, 0, 0, 0, 0, 0, 0, 0]⟩ : TFMiniPlus)._readDataBuffer.getD 0 0
            = 0x59 ∧
          validateChecksum
              (⟨⟨[0x07], []⟩, [0, 0, 0, 0, 0, 0, 0, 0, 0]⟩ : TFMiniPlus)._readDataBuffer 9
            = Outcome.returns true)) ∧
    (false = false →
      getDistance ⟨⟨[0x07], []⟩, [0, 0, 0, 0, 0, 0, 0, 0, 0]⟩ = 0 ∧
        getSignalStrength ⟨⟨[0x07], []⟩, [0, 0, 0, 0, 0, 0, 0, 0, 0]⟩ = 0 ∧
        getSensorRawTempreture ⟨⟨[0x07], []⟩, [0, 0, 0, 0, 0, 0, 0, 0, 0]⟩ = 0) :=
  readData_last_frame_invariant
    ⟨⟨[0x01, 0x59, 0x10, 0x00, 0x20, 0x00, 0x30, 0x00, 0x40, 0xF8, 0x07], []⟩,
      [0x59, 0x10, 0x00, 0x20, 0x00, 0x30, 0x00, 0x40, 0xF9]⟩
    ⟨⟨[0x07], []⟩, [0, 0, 0, 0, 0, 0, 0, 0, 0]⟩ [5, 5, 5, 5, 5, 5, 5, 5, 5] false (by decide)
    (by decide) (by decide)

/-- C15, as the claim states it, fails: `readData` first stores the valid frame
`59 10 00 20 00 30 00 40 F9`, the next call reads `59 00 00 00 00 00 00 00 00`,
whose checksum is wrong, and after it the stored frame and the three getters
no longer have the values of the first frame. -/
theorem readData_failed_read_not_sticky :
    ∃ s1 s2,
      readData
          ⟨⟨[0x59, 0x10, 0x00, 0x20, 0x00, 0x30, 0x00, 0x40, 0xF9,
              0x59, 0x00, 0x00, 0x00, 0x00, 0x00, 0x00, 0x00, 0x00], []⟩,
            [0, 0, 0, 0, 0, 0, 0, 0, 0]⟩ [5, 5, 5, 5, 5, 5, 5, 5, 5]
        = Outcome.returns (true, s1) ∧
      s1._readDataBuffer = [0x59, 0x10, 0x00, 0x20, 0x00, 0x30, 0x00, 0x40, 0xF9] ∧
      readData s1 [5, 5, 5, 5, 5, 5, 5, 5, 5] = Outcome.returns (false, s2) ∧
      s2._readDataBuffer ≠ s1._readDataBuffer ∧
      getDistance s2 ≠ getDistance s1 ∧
      getSignalStrength s2 ≠ getSignalStrength s1 ∧
      getSensorRawTempreture s2 ≠ getSensorRawTempreture s1 := by
  refine ⟨⟨⟨[0x59, 0x00, 0x00, 0x00, 0x00, 0x00, 0x00, 0x00, 0x00], []⟩,
      [0x59, 0x10, 0x00, 0x20, 0x00, 0x30, 0x00, 0x40, 0xF9]⟩,
    ⟨⟨[], []⟩, [0, 0, 0, 0, 0, 0, 0, 0, 0]⟩, by decide, by decide, by decide, by decide,
    by decide, by decide, by decide⟩

/-- C15, amended. If a `readData` call returns true and the next `readData`
call returns false, then after the failed call the last-frame buffer is all
zeros and `getDistance`, `getSignalStrength` and `getSensorRawTempreture`
return 0: `readData` clears the buffer before it reads. -/
theorem readData_failed_read_clears (self s1 s2 : TFMiniPlus) (buffer1 buffer2 : List Nat)
    (hrdb : self._readDataBuffer.length = 9) (hbuffer1 : buffer1.length = 9)
    (hbuffer2 : buffer2.length = 9)
    (h1 : readData self buffer1 = Outcome.returns (true, s1))
    (h2 : readData s1 buffer2 = Outcome.returns (false, s2)) :
    s2._readDataBuffer = List.replicate 9 0 ∧ getDistance s2 = 0 ∧
      getSignalStrength s2 = 0 ∧ getSensorRawTempreture s2 = 0 := by
  have hlen1 : s1._readDataBuffer.length = 9 := by
    rcases readData_returns_cases self s1 buffer1 true hrdb hbuffer1 h1 with
      ⟨hc, _⟩ | ⟨_, hl, _, _⟩
    · cases hc
    · exact hl
  rcases readData_returns_cases s1 s2 buffer2 false hlen1 hbuffer2 h2 with
    ⟨_, hz⟩ | ⟨hc, _⟩
  · have hg := getters_of_zero_buffer s2._stream
    rw [← hz] at hg
    exact ⟨hz, hg⟩
  · cases hc

theorem readData_failed_read_clears_witness :
    (⟨⟨[], []⟩, [0, 0, 0, 0, 0, 0, 0, 0, 0]⟩ : TFMiniPlus)._readDataBuffer
        = List.replicate 9 0 ∧
      getDistance ⟨⟨[], []⟩, [0, 0, 0, 0, 0, 0, 0, 0, 0]⟩ = 0 ∧
      getSignalStrength ⟨⟨[], []⟩, [0, 0, 0, 0, 0, 0, 0, 0, 0]⟩ = 0 ∧
      getSensorRawTempreture ⟨⟨[], []⟩, [0, 0, 0, 0, 0, 0, 0, 0, 0]⟩ = 0 :=
  readData_failed_read_clears
    ⟨⟨[0x59, 0x10, 0x00, 0x20, 0x00, 0x30, 0x00, 0x40, 0xF9,
        0x59, 0x00, 0x00, 0x00, 0x00, 0x00, 0x00, 0x00, 0x00], []⟩,
      [0, 0, 0, 0, 0, 0, 0, 0, 0]⟩
    ⟨⟨[0x59, 0x00, 0x00, 0x00, 0x00, 0x00, 0x00, 0x00, 0x00], []⟩,
      [0x59, 0x10, 0x00, 0x20, 0x00, 0x30, 0x00, 0x40, 0xF9]⟩
    ⟨⟨[], []⟩, [0, 0, 0, 0, 0, 0, 0, 0, 0]⟩ [5, 5, 5, 5, 5, 5, 5, 5, 5]
    [5, 5, 5, 5, 5, 5, 5, 5, 5] (by decide) (by decide) (by decide) (by decide) (by decide)

/-- C16. With the transport holding `c ++ v ++ rest`, where `c` and `v` are
nine-byte frames that start with 0x59, `c` fails `validateChecksum` and `v`
passes it, two consecutive `readData` calls return false and then true; after
the second the stored frame is `v`, the getters give the fields of `v`, and
exactly `rest` is left unread. -/
theorem readData_after_corrupt_frame (c v rest written rdb buffer1 buffer2 : List Nat)
    (hc : c.length = 9) (hc0 : c.getD 0 0 = 0x59)
    (hcbad : validateChecksum c 9 = Outcome.returns false)
    (hv : v.length = 9) (hv0 : v.getD 0 0 = 0x59)
    (hvgood : validateChecksum v 9 = Outcome.returns true) (hvbytes : ∀ b ∈ v, b < 256)
    (hrdb : rdb.length = 9) (hbuffer1 : buffer1.length = 9) (hbuffer2 : buffer2.length = 9) :
    ∃ s1 s2,
      readData ⟨⟨c ++ v ++ rest, written⟩, rdb⟩ buffer1 = Outcome.returns (false, s1) ∧
      readData s1 buffer2 = Outcome.returns (true, s2) ∧
      s2._readDataBuffer = v ∧ s2._stream.pending = rest ∧
      getDistance s2 = v.getD 2 0 + 256 * v.getD 3 0 ∧
      getSignalStrength s2 = v.getD 4 0 + 256 * v.getD 5 0 ∧
      getSensorRawTempreture s2 = v.getD 6 0 + 256 * v.getD 7 0 := by
  rcases c with _ | ⟨c0, cbody⟩
  · simp at hc
  rcases v with _ | ⟨v0, vbody⟩
  · simp at hv
  simp only [List.getD_cons_zero] at hc0 hv0
  subst hc0
  subst hv0
  have hcb : cbody.length = 8 := by simpa using hc
  have hvb : vbody.length = 8 := by simpa using hv
  have e1 := readData_eq [] cbody (0x59 :: vbody ++ rest) written rdb buffer1 (by simp) hcb
    hrdb hbuffer1
  rw [validateChecksum_eq _ 9 (by norm_num) (by norm_num) (by simp; omega)] at hcbad hvgood
  have hcok : (((0x59 :: cbody).take 8).sum % 256 == cbody.getD 7 0) = false := by
    simpa using hcbad
  have hvok : (((0x59 :: vbody).take 8).sum % 256 == vbody.getD 7 0) = true := by
    simpa using hvgood
  rw [hcok] at e1
  have e2 := readData_eq [] vbody rest written (List.replicate 9 0) buffer2 (by simp) hvb
    (by simp) hbuffer2
  rw [hvok] at e2
  have hin : (0x59 :: cbody) ++ (0x59 :: vbody) ++ rest
      = [] ++ 0x59 :: (cbody ++ (0x59 :: vbody ++ rest)) := by simp
  rw [hin]
  simp only [Bool.false_eq_true, if_false] at e1
  simp only [if_true, List.nil_append] at e2
  refine ⟨_, ⟨⟨rest, written⟩, 0x59 :: vbody⟩, e1, ?_, rfl, rfl, ?_, ?_, ?_⟩
  · simpa using e2
  · exact uint16_of_bytes _ hvbytes 2 3
  · exact uint16_of_bytes _ hvbytes 4 5
  · exact uint16_of_bytes _ hvbytes 6 7

theorem readData_after_corrupt_frame_witness :
    ∃ s1 s2,
      readData
          ⟨⟨[0x59, 0x00, 0x00, 0x00, 0x00, 0x00, 0x00, 0x00, 0x00]
              ++ [0x59, 0x10, 0x00, 0x20, 0x00, 0x30, 0x00, 0x40, 0xF9] ++ [0x07], []⟩,
            [9, 9, 9, 9, 9, 9, 9, 9, 9]⟩ [5, 5, 5, 5, 5, 5, 5, 5, 5]
        = Outcome.returns (false, s1) ∧
      readData s1 [6, 6, 6, 6, 6, 6, 6, 6, 6] = Outcome.returns (true, s2) ∧
      s2._readDataBuffer = [0x59, 0x10, 0x00, 0x20, 0x00, 0x30, 0x00, 0x40, 0xF9] ∧
      s2._stream.pending = [0x07] ∧
      getDistance s2
        = [0x59, 0x10, 0x00, 0x20, 0x00, 0x30, 0x00, 0x40, 0xF9].getD 2 0
          + 256 * [0x59, 0x10, 0x00, 0x20, 0x00, 0x30, 0x00, 0x40, 0xF9].getD 3 0 ∧
      getSignalStrength s2
        = [0x59, 0x10, 0x00, 0x20, 0x00, 0x30, 0x00, 0x40, 0xF9].getD 4 0
          + 256 * [0x59, 0x10, 0x00, 0x20, 0x00, 0x30, 0x00, 0x40, 0xF9].getD 5 0 ∧
      getSensorRawTempreture s2
        = [0x59, 0x10, 0x00, 0x20, 0x00, 0x30, 0x00, 0x40, 0xF9].getD 6 0
          + 256 * [0x59, 0x10, 0x00, 0x20, 0x00, 0x30, 0x00, 0x40, 0xF9].getD 7 0 :=
  readData_after_corrupt_frame [0x59, 0x00, 0x00, 0x00, 0x00, 0x00, 0x00, 0x00, 0x00]
    [0x59, 0x10, 0x00, 0x20, 0x00, 0x30, 0x00, 0x40, 0xF9] [0x07] []
    [9, 9, 9, 9, 9, 9, 9, 9, 9] [5, 5, 5, 5, 5, 5, 5, 5, 5] [6, 6, 6, 6, 6, 6, 6, 6, 6]
    (by decide) (by decide) (by decide) (by decide) (by decide) (by decide) (by decide)
    (by decide) (by decide) (by decide)

/-! ## Version query, short reads and bounds -/

theorem readCommandResponse_eq_invalid (g body rest written rdb buffer response : List Nat)
    (L : Nat) (hg : ∀ b ∈ g, b ≠ 0x5A) (h2 : 2 ≤ L) (h8 : L ≤ 8) (hbody : body.length = L - 2)
    (hresponse : response.length = 8)
    (hbad : validateChecksum (0x5A :: L :: body) L = Outcome.returns false) :
    readCommandResponse ⟨⟨g ++ 0x5A :: L :: (body ++ rest), written⟩, rdb⟩ buffer response
      = Outcome.returns (false, buffer, ⟨⟨rest, written⟩, rdb⟩) := by
  have htake : (body ++ rest).take (L - 2) = body := List.take_left' hbody
  have hdrop : (body ++ rest).drop (L - 2) = rest := List.drop_left' hbody
  have hF : 0x5A :: L :: body
      = 0x5A :: L :: ((body ++ rest).take (L - 2)
          ++ response.drop ((body ++ rest).take (L - 2)).length).take (L - 2) := by
    rw [htake, List.take_left' hbody]
  rw [validateChecksum_eq _ L (by omega) (by omega) (by simp [hbody]; omega)] at hbad
  have hok : false
      = (((0x5A :: L :: body).take (L - 1)).sum % 256 == (0x5A :: L :: body).getD (L - 1) 0) :=
    (Outcome.returns.inj hbad).symm
  have h := readCommandResponse_eq_of_length g (body ++ rest) written rdb buffer response
    (0x5A :: L :: body) L false hg h2 h8 hresponse hF hok (fun hc => by cases hc)
  rw [hdrop] at h
  simpa using h

theorem getVersion_eq_valid (g body rest written rdb commandResponse response : List Nat)
    (L : Nat) (hg : ∀ b ∈ g, b ≠ 0x5A) (h6 : 6 ≤ L) (h7 : L ≤ 7) (hbody : body.length = L - 2)
    (hcr : commandResponse.length = 7) (hresponse : response.length = 8)
    (hgood : validateChecksum (0x5A :: L :: body) L = Outcome.returns true) :
    getVersion ⟨⟨g ++ 0x5A :: L :: (body ++ rest), written⟩, rdb⟩ commandResponse response
      = Outcome.returns
          (toString ((0x5A :: L :: body).getD 5 0) ++ "."
              ++ toString ((0x5A :: L :: body).getD 4 0) ++ "."
              ++ toString ((0x5A :: L :: body).getD 3 0),
            ⟨⟨rest, written ++ [0x5A, 0x04, 0x01, 0x5F]⟩, rdb⟩) := by
  have hok := (validateChecksum_frame_iff body L (by omega) (by omega) hbody).1 hgood
  unfold getVersion
  simp only [CMD_FRAME_MARKER]
  rw [write_eq _ _ 4 (by simp), bind_returns]
  simp only []
  rw [readCommandResponse_eq g body rest _ rdb commandResponse response L hg (by omega)
    (by omega) hbody hresponse (by omega), bind_returns, hok]
  simp only [if_true, Bool.not_true, Bool.false_eq_true, if_false]
  rw [getElem?_frame_append body _ L 5 hbody (by omega) (by omega),
    getElem?_frame_append body _ L 4 hbody (by omega) (by omega),
    getElem?_frame_append body _ L 3 hbody (by omega) (by omega)]
  rfl

theorem getVersion_eq_invalid (g body rest written rdb commandResponse response : List Nat)
    (L : Nat) (hg : ∀ b ∈ g, b ≠ 0x5A) (h2 : 2 ≤ L) (h8 : L ≤ 8) (hbody : body.length = L - 2)
    (hresponse : response.length = 8)
    (hbad : validateChecksum (0x5A :: L :: body) L = Outcome.returns false) :
    getVersion ⟨⟨g ++ 0x5A :: L :: (body ++ rest), written⟩, rdb⟩ commandResponse response
      = Outcome.returns ("Error", ⟨⟨rest, written ++ [0x5A, 0x04, 0x01, 0x5F]⟩, rdb⟩) := by
  unfold getVersion
  simp only [CMD_FRAME_MARKER]
  rw [write_eq _ _ 4 (by simp), bind_returns]
  simp only []
  rw [readCommandResponse_eq_invalid g body rest _ rdb commandResponse response L hg h2 h8
    hbody hresponse hbad, bind_returns]
  rfl

/-- C17. With the transport holding `g ++ r ++ rest`, where `g` has no 0x5A and
`r = [0x5A, L] ++ body` is a complete response: if `L` is 6 or 7 and `r` passes
`validateChecksum`, `getVersion` returns the decimal forms of `r[5]`, `r[4]`
and `r[3]` joined by dots; if `2 ≤ L ≤ 8` and `r` fails `validateChecksum`, it
returns `"Error"`. -/
theorem getVersion_format (g body rest written rdb commandResponse response : List Nat)
    (L : Nat) (hg : ∀ b ∈ g, b ≠ 0x5A) (hbody : body.length = L - 2)
    (hcr : commandResponse.length = 7) (hresponse : response.length = 8) :
    (6 ≤ L → L ≤ 7 → validateChecksum ([0x5A, L] ++ body) L = Outcome.returns true →
      ∃ s, getVersion ⟨⟨g ++ ([0x5A, L] ++ body) ++ rest, written⟩, rdb⟩ commandResponse response
        = Outcome.returns
            (toString (([0x5A, L] ++ body).getD 5 0) ++ "."
              ++ toString (([0x5A, L] ++ body).getD 4 0) ++ "."
              ++ toString (([0x5A, L] ++ body).getD 3 0), s)) ∧
    (2 ≤ L → L ≤ 8 → validateChecksum ([0x5A, L] ++ body) L = Outcome.returns false →
      ∃ s, getVersion ⟨⟨g ++ ([0x5A, L] ++ body) ++ rest, written⟩, rdb⟩ commandResponse response
        = Outcome.returns ("Error", s)) := by
  have hin : g ++ ([0x5A, L] ++ body) ++ rest = g ++ 0x5A :: L :: (body ++ rest) := by simp
  have hF : [0x5A, L] ++ body = 0x5A :: L :: body := rfl
  rw [hin, hF]
  constructor
  · intro h6 h7 hgood
    exact ⟨_, getVersion_eq_valid g body rest written rdb commandResponse response L hg h6 h7
      hbody hcr hresponse hgood⟩
  · intro h2 h8 hbad
    exact ⟨_, getVersion_eq_invalid g body rest written rdb commandResponse response L hg h2 h8
      hbody hresponse hbad⟩

theorem getVersion_format_witness :
    (∃ s, getVersion
        ⟨⟨[0x00] ++ ([0x5A, 7] ++ [0x01, 0x01, 0x02, 0x03, 0x68]) ++ [0x09], []⟩, []⟩
        [1, 1, 1, 1, 1, 1, 1] [3, 3, 3, 3, 3, 3, 3, 3] = Outcome.returns ("3.2.1", s)) ∧
    (∃ s, getVersion
        ⟨⟨[0x00] ++ ([0x5A, 7] ++ [0x01, 0x01, 0x02, 0x03, 0x69]) ++ [0x09], []⟩, []⟩
        [1, 1, 1, 1, 1, 1, 1] [3, 3, 3, 3, 3, 3, 3, 3] = Outcome.returns ("Error", s)) :=
  ⟨(getVersion_format [0x00] [0x01, 0x01, 0x02, 0x03, 0x68] [0x09] [] [] [1, 1, 1, 1, 1, 1, 1]
      [3, 3, 3, 3, 3, 3, 3, 3] 7 (by decide) (by decide) (by decide) (by decide)).1
      (by decide) (by decide) (by decide),
    (getVersion_format [0x00] [0x01, 0x01, 0x02, 0x03, 0x69] [0x09] [] [] [1, 1, 1, 1, 1, 1, 1]
      [3, 3, 3, 3, 3, 3, 3, 3] 7 (by decide) (by decide) (by decide) (by decide)).2
      (by decide) (by decide) (by decide)⟩

/-- C18 fails on the code. After `5A 04` only one of the two announced bytes
arrives. `readCommandResponse` completes the frame with the second byte the
local array `response` happened to hold: with 0x5E there the frame
`5A 04 00 5E` passes the checksum and the call returns true and copies it to
the caller; with 0x00 there the same transport gives false. After `5A 0A` with
nothing following, the rebuilding loop indexes the eight-byte `frame` at 8. -/
theorem readCommandResponse_short_read_uses_stale_bytes :
    readCommandResponse ⟨⟨[0x5A, 0x04, 0x00], []⟩, []⟩ [0, 0, 0, 0]
        [0xAA, 0x5E, 0, 0, 0, 0, 0, 0]
      = Outcome.returns (true, [0x5A, 0x04, 0x00, 0x5E], ⟨⟨[], []⟩, []⟩) ∧
    readCommandResponse ⟨⟨[0x5A, 0x04, 0x00], []⟩, []⟩ [0, 0, 0, 0]
        [0xAA, 0x00, 0, 0, 0, 0, 0, 0]
      = Outcome.returns (false, [0, 0, 0, 0], ⟨⟨[], []⟩, []⟩) ∧
    readCommandResponse ⟨⟨[0x5A, 0x0A], []⟩, []⟩ [0, 0, 0, 0, 0, 0, 0, 0, 0, 0]
        [0, 0, 0, 0, 0, 0, 0, 0]
      = Outcome.outOfBounds := by
  refine ⟨by decide, by decide, by decide⟩

/-- C20. With the transport holding `g ++ [0x5A, L] ++ tail`, where `g` has no
0x5A, `2 ≤ L ≤ 8`, whatever follows the length byte and whatever the local
array `response` held before: the size of the payload read is `L - 2`, at most
the eight bytes of `response`; the indices `i - 2` and `i` for `2 ≤ i < L` and
the index `L - 1` are below 8; when the caller's array holds at least `L`
bytes, `readCommandResponse` returns, so no access was out of bounds, and
leaves the caller's array as it was beyond its first `L` bytes, the whole of it
on false; on true the first `L` bytes are a frame `[0x5A, L, ...]` that passes
`validateChecksum`. -/
theorem readCommandResponse_bounds (g tail written rdb buffer response : List Nat) (L : Nat)
    (hg : ∀ b ∈ g, b ≠ 0x5A) (h2 : 2 ≤ L) (h8 : L ≤ MAX_CMD_RESPONSE_LENGTH)
    (hresponse : response.length = MAX_CMD_RESPONSE_LENGTH) (hbuffer : L ≤ buffer.length) :
    sizeOfDifference L 2 = L - 2 ∧ L - 2 ≤ response.length ∧
    (∀ i, 2 ≤ i → i < L → i - 2 < MAX_CMD_RESPONSE_LENGTH ∧ i < MAX_CMD_RESPONSE_LENGTH) ∧
    L - 1 < MAX_CMD_RESPONSE_LENGTH ∧
    ∃ ok buffer1 s,
      readCommandResponse ⟨⟨g ++ [0x5A, L] ++ tail, written⟩, rdb⟩ buffer response
        = Outcome.returns (ok, buffer1, s) ∧
      buffer1.length = buffer.length ∧ buffer1.drop L = buffer.drop L ∧
      (ok = false → buffer1 = buffer) ∧
      (ok = true → (buffer1.take L).length = L ∧ buffer1.getD 0 0 = 0x5A ∧
        buffer1.getD 1 0 = L ∧ validateChecksum (buffer1.take L) L = Outcome.returns true) := by
  unfold MAX_CMD_RESPONSE_LENGTH at h8 hresponse ⊢
  have hin : g ++ [0x5A, L] ++ tail = g ++ 0x5A :: L :: tail := by simp
  have hlen := rebuilt_frame_length tail response L h2 h8 hresponse
  have h := readCommandResponse_eq_of_length g tail written rdb buffer response _ L _ hg h2 h8
    hresponse rfl rfl (fun _ => hbuffer)
  rw [hin]
  refine ⟨sizeOfDifference_eq L 2 h2 (by norm_num; omega), by omega,
    fun i _ _ => ⟨by omega, by omega⟩, by omega, _, _, _, h, ?_⟩
  generalize (tail.take (L - 2) ++ response.drop (tail.take (L - 2)).length).take (L - 2)
    = body at hlen
  generalize hokdef : (((0x5A :: L :: body).take (L - 1)).sum % 256
    == (0x5A :: L :: body).getD (L - 1) 0) = ok
  cases ok with
  | false =>
    refine ⟨rfl, rfl, fun _ => rfl, (fun hc => by cases hc)⟩
  | true =>
    have htake : ((0x5A :: L :: body) ++ buffer.drop L).take L = 0x5A :: L :: body :=
      List.take_left' hlen
    simp only [if_true]
    refine ⟨copied_length _ buffer L hlen hbuffer, List.drop_left' hlen,
      (fun hc => by cases hc), fun _ => ⟨?_, rfl, rfl, ?_⟩⟩
    · rw [htake]
      exact hlen
    · rw [htake, validateChecksum_eq _ L (by omega) (by omega) (by omega), hokdef]

theorem readCommandResponse_bounds_witness :
    sizeOfDifference 4 2 = 4 - 2 ∧ 4 - 2 ≤ [0xAA, 0x5E, 0, 0, 0, 0, 0, 0].length ∧
    ∃ ok buffer1 s,
      readCommandResponse ⟨⟨[0x00] ++ [0x5A, 4] ++ [0x00], []⟩, []⟩ [7, 7, 7, 7, 7]
          [0xAA, 0x5E, 0, 0, 0, 0, 0, 0]
        = Outcome.returns (ok, buffer1, s) ∧
      buffer1.length = [7, 7, 7, 7, 7].length ∧ buffer1.drop 4 = [7, 7, 7, 7, 7].drop 4 ∧
      (ok = false → buffer1 = [7, 7, 7, 7, 7]) ∧
      (ok = true → (buffer1.take 4).length = 4 ∧ buffer1.getD 0 0 = 0x5A ∧
        buffer1.getD 1 0 = 4 ∧ validateChecksum (buffer1.take 4) 4 = Outcome.returns true) :=
  have h := readCommandResponse_bounds [0x00] [0x00] [] [] [7, 7, 7, 7, 7]
    [0xAA, 0x5E, 0, 0, 0, 0, 0, 0] 4 (by decide) (by decide) (by decide) (by decide) (by decide)
  ⟨h.1, h.2.1, h.2.2.2.2⟩

end TFMiniPlus
